import Mathlib

set_option maxHeartbeats 1000000

/-!
Verification development for the AI-RoboticsNews collection pipeline.

The Python sources are shallowly embedded below.  Pure Python functions
become Lean functions over explicit data; dynamic (dict-based) values are
modelled with structures and a small `PyV` type for dynamically typed
scalar fields; Python exceptions become `Except`; Python standard-library
date parsers (`datetime.fromisoformat`, `datetime.strptime`) are treated
as environment parameters, passed in as functions.  String operations are
implemented over `List Char` so that every definition evaluates inside
the kernel.  Relevance scores, whose Python literals are all multiples of
0.1, are represented exactly as integers in tenths of a point: every
score constant below is 10 times the corresponding Python literal, which
preserves all sums, minima and threshold comparisons.
-/

/-! ## Python string primitives -/

/-- Python `s.lower()` : lowercase every character (ASCII-adequate model). -/
def pyLower (s : String) : String := ⟨s.data.map Char.toLower⟩

/-- Python `s.strip()` : drop leading and trailing whitespace. -/
def pyStrip (s : String) : String :=
  ⟨((s.data.dropWhile Char.isWhitespace).reverse.dropWhile Char.isWhitespace).reverse⟩

/-- Python slicing `s[:n]` (by characters). -/
def pyTake (s : String) (n : Nat) : String := ⟨s.data.take n⟩

/-- Python `len(s)` (in characters). -/
def pyLen (s : String) : Nat := s.data.length

/-- Python substring test `needle in hay` on character lists: `n` occurs
contiguously somewhere in `h` (the empty needle occurs everywhere). -/
def listIn (n : List Char) : List Char → Bool
  | [] => n.isEmpty
  | c :: t => n.isPrefixOf (c :: t) || listIn n t

/-- Python `needle in hay` for strings. -/
def pyIn (n h : String) : Bool := listIn n.data h.data

/-- Python `s.startswith(p)`. -/
def pyStartsWith (s p : String) : Bool := p.data.isPrefixOf s.data

/-- Python `s.replace(c, rep)` for a one-character pattern (the only form
the embedded code uses, for `replace("Z", "+00:00")`). -/
def pyReplaceChar (c : Char) (rep : List Char) : List Char → List Char
  | [] => []
  | d :: t => (if d = c then rep else [d]) ++ pyReplaceChar c rep t

/-- Python `s.replace("Z", "+00:00")`. -/
def pyReplaceZ (s : String) : String := ⟨pyReplaceChar 'Z' "+00:00".data s.data⟩

/-- Python `sep.join(l)` over character lists. -/
def joinSep (sep : List Char) : List (List Char) → List Char
  | [] => []
  | [x] => x
  | x :: y :: rest => x ++ sep ++ joinSep sep (y :: rest)

/-- Python `sep.join(strings)`. -/
def pyJoin (sep : String) (l : List String) : String :=
  ⟨joinSep sep.data (l.map String.data)⟩

/-- Python `message.split(chr(10))[0]` : the first line of a string. -/
def firstLine (s : String) : String := ⟨s.data.takeWhile (fun c => c ≠ '\n')⟩

/-! ## Deduplication: news_monitor.py / rss_news_monitor.py
`_remove_duplicates`

The function reads only `article["title"]` and `article.get("url", "")`,
so an article is modelled by those two fields. -/

structure Article where
  title : String
  url : String
  deriving DecidableEq, Repr

/-- `title_key = article["title"].lower().strip()`. -/
def normTitle (a : Article) : String := pyStrip (pyLower a.title)

/-- `url_key = article.get("url", "").lower().strip()`. -/
def normUrl (a : Article) : String := pyStrip (pyLower a.url)

/-- The loop state: the `seen_titles` and `seen_urls` sets. -/
abbrev DState := List String × List String

/-- The acceptance condition of one iteration of `_remove_duplicates`:
the item is kept iff neither reject branch fires, i.e. no exact
title/URL hit against the seen sets, and no seen title contains the
first 50 characters of this title (`title_prefix in seen_title` is
Python substring containment, not a prefix test). -/
def dedupeAccepts (s : DState) (a : Article) : Prop :=
  ¬ (normTitle a ∈ s.1 ∨ (normUrl a ≠ "" ∧ normUrl a ∈ s.2)) ∧
  ¬ (∃ t ∈ s.1, pyIn (pyTake (normTitle a) 50) t = true)

instance (s : DState) (a : Article) : Decidable (dedupeAccepts s a) := by
  unfold dedupeAccepts
  infer_instance

/-- Recording an accepted item: `seen_titles.add(title_key)` always,
`seen_urls.add(url_key)` only when `url_key` is non-empty. -/
def dedupeInsert (s : DState) (a : Article) : DState :=
  (normTitle a :: s.1, if normUrl a ≠ "" then normUrl a :: s.2 else s.2)

/-- The filtering loop of `_remove_duplicates` over the remaining input,
carrying the seen sets. -/
def dedupeGo (s : DState) : List Article → List Article
  | [] => []
  | a :: rest =>
    if dedupeAccepts s a then a :: dedupeGo (dedupeInsert s a) rest
    else dedupeGo s rest

/-- `_remove_duplicates(articles)` from news_monitor.py (the
rss_news_monitor.py copy is textually identical). -/
def remove_duplicates (articles : List Article) : List Article :=
  dedupeGo ([], []) articles

/-- The seen sets after the loop has consumed a list of articles. -/
def dedupeFinal (s : DState) : List Article → DState
  | [] => s
  | a :: rest =>
    if dedupeAccepts s a then dedupeFinal (dedupeInsert s a) rest
    else dedupeFinal s rest

/-! ## Deduplication: paperswithcode_monitor.py `_remove_duplicates`
(title-only). -/

structure PaperRec where
  title : String
  url : String
  deriving DecidableEq, Repr

/-- `title_key = paper["title"].lower().strip()`. -/
def pwcNormTitle (p : PaperRec) : String := pyStrip (pyLower p.title)

/-- The loop of the papers `_remove_duplicates`: keep a paper iff its
normalized title has not been seen, recording it when kept. -/
def pwcGo (seen : List String) : List PaperRec → List PaperRec
  | [] => []
  | p :: rest =>
    if pwcNormTitle p ∈ seen then pwcGo seen rest
    else p :: pwcGo (pwcNormTitle p :: seen) rest

/-- `_remove_duplicates(papers)` from paperswithcode_monitor.py. -/
def pwc_remove_duplicates (papers : List PaperRec) : List PaperRec :=
  pwcGo [] papers

/-! ## Basic lemmas about the deduplicator -/

/-- Componentwise inclusion of seen-set states. -/
def stateLE (s t : DState) : Prop :=
  (∀ x ∈ s.1, x ∈ t.1) ∧ (∀ x ∈ s.2, x ∈ t.2)

theorem stateLE_refl (s : DState) : stateLE s s :=
  ⟨fun _ h => h, fun _ h => h⟩

theorem stateLE_trans {s t u : DState} (h1 : stateLE s t) (h2 : stateLE t u) :
    stateLE s u :=
  ⟨fun x hx => h2.1 x (h1.1 x hx), fun x hx => h2.2 x (h1.2 x hx)⟩

theorem stateLE_insert (s : DState) (a : Article) : stateLE s (dedupeInsert s a) := by
  constructor
  · intro x hx
    exact List.mem_cons_of_mem _ hx
  · intro x hx
    simp only [dedupeInsert]
    split
    · exact List.mem_cons_of_mem _ hx
    · exact hx

/-- Acceptance is antitone in the seen sets: an item accepted against a
larger state is accepted against any smaller one. -/
theorem dedupeAccepts_mono {s t : DState} (a : Article) (hle : stateLE s t)
    (h : dedupeAccepts t a) : dedupeAccepts s a := by
  obtain ⟨h1, h2⟩ := h
  constructor
  · intro hc
    apply h1
    rcases hc with hc | ⟨hne, hc⟩
    · exact Or.inl (hle.1 _ hc)
    · exact Or.inr ⟨hne, hle.2 _ hc⟩
  · rintro ⟨t0, ht0, hin⟩
    exact h2 ⟨t0, hle.1 _ ht0, hin⟩

theorem stateLE_final (l : List Article) : ∀ s : DState, stateLE s (dedupeFinal s l) := by
  induction l with
  | nil => intro s; exact stateLE_refl s
  | cons a rest ih =>
    intro s
    rw [dedupeFinal]
    split
    · exact stateLE_trans (stateLE_insert s a) (ih (dedupeInsert s a))
    · exact ih s

/-- An item rejected at state `s` never re-enters the output of the loop
run from any larger state. -/
theorem not_mem_dedupeGo_of_rejected {a : Article} :
    ∀ (l : List Article) (s t : DState), ¬ dedupeAccepts s a → stateLE s t →
      a ∉ dedupeGo t l := by
  intro l
  induction l with
  | nil =>
    intro s t _ _ h
    simp [dedupeGo] at h
  | cons b rest ih =>
    intro s t hrej hle hmem
    rw [dedupeGo] at hmem
    split_ifs at hmem with hb
    · rcases List.mem_cons.mp hmem with heq | hmem2
      · exact hrej (dedupeAccepts_mono a hle (heq ▸ hb))
      · exact ih s (dedupeInsert t b) hrej
          (stateLE_trans hle (stateLE_insert t b)) hmem2
    · exact ih s t hrej hle hmem

theorem dedupeGo_append (xs ys : List Article) :
    ∀ s, dedupeGo s (xs ++ ys) = dedupeGo s xs ++ dedupeGo (dedupeFinal s xs) ys := by
  induction xs with
  | nil =>
    intro s
    simp [dedupeGo, dedupeFinal]
  | cons a rest ih =>
    intro s
    rw [List.cons_append, dedupeGo, dedupeGo, dedupeFinal]
    split_ifs with h
    · rw [ih, List.cons_append]
    · rw [ih]

theorem dedupeGo_sublist : ∀ (l : List Article) (s : DState),
    (dedupeGo s l).Sublist l := by
  intro l
  induction l with
  | nil =>
    intro s
    simp [dedupeGo]
  | cons a rest ih =>
    intro s
    rw [dedupeGo]
    split_ifs with h
    · exact (ih (dedupeInsert s a)).cons_cons a
    · exact (ih s).cons a

theorem dedupeGo_idem : ∀ (l : List Article) (s : DState),
    dedupeGo s (dedupeGo s l) = dedupeGo s l := by
  intro l
  induction l with
  | nil => intro s; rfl
  | cons a rest ih =>
    intro s
    rw [dedupeGo]
    split_ifs with h
    · rw [dedupeGo, if_pos h, ih]
    · exact ih s

/-- Each article value occurs at most once in the output. -/
theorem count_dedupeGo_le_one (a : Article) : ∀ (l : List Article) (s : DState),
    (dedupeGo s l).count a ≤ 1 := by
  intro l
  induction l with
  | nil =>
    intro s
    simp [dedupeGo]
  | cons b rest ih =>
    intro s
    rw [dedupeGo]
    split_ifs with h
    · by_cases hab : a = b
      · subst hab
        have hnm : a ∉ dedupeGo (dedupeInsert s a) rest := by
          apply not_mem_dedupeGo_of_rejected rest (dedupeInsert s a) (dedupeInsert s a)
            ?_ (stateLE_refl _)
          intro hacc
          apply hacc.1
          exact Or.inl (by simp [dedupeInsert])
        simp [List.count_cons, List.count_eq_zero.mpr hnm]
      · simpa [List.count_cons, hab] using ih (dedupeInsert s b)
    · exact ih s

/-- Accepted items have unseen titles, and output titles are pairwise
distinct. -/
theorem dedupeGo_titles : ∀ (l : List Article) (s : DState),
    (∀ a ∈ dedupeGo s l, normTitle a ∉ s.1) ∧
    (dedupeGo s l).Pairwise (fun a b => normTitle a ≠ normTitle b) := by
  intro l
  induction l with
  | nil =>
    intro s
    simp [dedupeGo]
  | cons a rest ih =>
    intro s
    rw [dedupeGo]
    split_ifs with h
    · obtain ⟨ih1, ih2⟩ := ih (dedupeInsert s a)
      constructor
      · intro x hx
        rcases List.mem_cons.mp hx with heq | hx2
        · subst heq
          intro hc
          exact h.1 (Or.inl hc)
        · intro hc
          apply ih1 x hx2
          simp [dedupeInsert]
          exact Or.inr hc
      · refine List.Pairwise.cons ?_ ih2
        intro b hb
        have hb1 := ih1 b hb
        simp [dedupeInsert] at hb1
        exact fun heq => hb1.1 heq.symm
    · exact ih s

/-- Accepted items have unseen non-empty URLs, and non-empty output URLs
are pairwise distinct. -/
theorem dedupeGo_urls : ∀ (l : List Article) (s : DState),
    (∀ a ∈ dedupeGo s l, normUrl a ≠ "" → normUrl a ∉ s.2) ∧
    (dedupeGo s l).Pairwise (fun a b => normUrl a ≠ "" → normUrl a ≠ normUrl b) := by
  intro l
  induction l with
  | nil =>
    intro s
    simp [dedupeGo]
  | cons a rest ih =>
    intro s
    rw [dedupeGo]
    split_ifs with h
    · obtain ⟨ih1, ih2⟩ := ih (dedupeInsert s a)
      constructor
      · intro x hx
        rcases List.mem_cons.mp hx with heq | hx2
        · subst heq
          intro hne hc
          exact h.1 (Or.inr ⟨hne, hc⟩)
        · intro hne hc
          apply ih1 x hx2 hne
          simp only [dedupeInsert]
          split
          · exact List.mem_cons_of_mem _ hc
          · exact hc
      · refine List.Pairwise.cons ?_ ih2
        intro b hb hane
        have hb1 := ih1 b hb
        by_cases hbne : normUrl b = ""
        · intro heq
          exact hane (heq.trans hbne)
        · have := hb1 hbne
          simp only [dedupeInsert, if_pos hane] at this
          intro heq
          apply this
          exact heq ▸ List.mem_cons_self _ _
    · exact ih s

/-- The seen titles after a run are the initial ones plus the normalized
titles of the accepted items. -/
theorem dedupeFinal_titles : ∀ (l : List Article) (s : DState) (x : String),
    x ∈ (dedupeFinal s l).1 ↔ x ∈ s.1 ∨ ∃ b ∈ dedupeGo s l, normTitle b = x := by
  intro l
  induction l with
  | nil =>
    intro s x
    simp [dedupeFinal, dedupeGo]
  | cons a rest ih =>
    intro s x
    rw [dedupeFinal, dedupeGo]
    split_ifs with h
    · rw [ih]
      simp only [dedupeInsert, List.mem_cons]
      constructor
      · rintro ((heq | hs) | ⟨b, hb, hbeq⟩)
        · exact Or.inr ⟨a, Or.inl rfl, heq.symm⟩
        · exact Or.inl hs
        · exact Or.inr ⟨b, Or.inr hb, hbeq⟩
      · rintro (hs | ⟨b, (heq | hb), hbeq⟩)
        · exact Or.inl (Or.inr hs)
        · exact Or.inl (Or.inl (by rw [← hbeq, heq]))
        · exact Or.inr ⟨b, hb, hbeq⟩
    · rw [ih]

/-- The seen URLs after a run are the initial ones plus the non-empty
normalized URLs of the accepted items. -/
theorem dedupeFinal_urls : ∀ (l : List Article) (s : DState) (x : String),
    x ∈ (dedupeFinal s l).2 ↔
      x ∈ s.2 ∨ ∃ b ∈ dedupeGo s l, normUrl b = x ∧ normUrl b ≠ "" := by
  intro l
  induction l with
  | nil =>
    intro s x
    simp [dedupeFinal, dedupeGo]
  | cons a rest ih =>
    intro s x
    rw [dedupeFinal, dedupeGo]
    split_ifs with h
    · rw [ih]
      simp only [dedupeInsert, List.mem_cons]
      by_cases hane : normUrl a = ""
      · simp only [hane, ne_eq, not_true_eq_false, if_false]
        constructor
        · rintro (hs | ⟨b, hb, hbeq⟩)
          · exact Or.inl hs
          · exact Or.inr ⟨b, Or.inr hb, hbeq⟩
        · rintro (hs | ⟨b, (heq | hb), hbeq, hbne⟩)
          · exact Or.inl hs
          · exact absurd (heq ▸ hane) hbne
          · exact Or.inr ⟨b, hb, hbeq, hbne⟩
      · simp only [ne_eq, hane, not_false_eq_true, if_true, List.mem_cons]
        constructor
        · rintro ((heq | hs) | ⟨b, hb, hbeq⟩)
          · exact Or.inr ⟨a, Or.inl rfl, heq.symm, hane⟩
          · exact Or.inl hs
          · exact Or.inr ⟨b, Or.inr hb, hbeq⟩
        · rintro (hs | ⟨b, (heq | hb), hbeq, hbne⟩)
          · exact Or.inl (Or.inr hs)
          · exact Or.inl (Or.inl (by rw [← hbeq, heq]))
          · exact Or.inr ⟨b, hb, hbeq, hbne⟩
    · rw [ih]

/-- Kept papers have unseen titles, and output titles of the papers
deduplicator are pairwise distinct. -/
theorem pwcGo_titles : ∀ (l : List PaperRec) (seen : List String),
    (∀ p ∈ pwcGo seen l, pwcNormTitle p ∉ seen) ∧
    (pwcGo seen l).Pairwise (fun p q => pwcNormTitle p ≠ pwcNormTitle q) := by
  intro l
  induction l with
  | nil =>
    intro seen
    simp [pwcGo]
  | cons p rest ih =>
    intro seen
    rw [pwcGo]
    split_ifs with h
    · exact ih seen
    · obtain ⟨ih1, ih2⟩ := ih (pwcNormTitle p :: seen)
      constructor
      · intro x hx
        rcases List.mem_cons.mp hx with heq | hx2
        · subst heq
          exact h
        · intro hc
          exact ih1 x hx2 (List.mem_cons_of_mem _ hc)
      · refine List.Pairwise.cons ?_ ih2
        intro q hq heq
        apply ih1 q hq
        rw [← heq]
        exact List.mem_cons_self _ _

/-- If an article survives deduplication, it is the one accepted at its
first occurrence: survival is decided entirely by the items before that
first occurrence. -/
theorem dedupe_first_occurrence (l1 l2 : List Article) (a : Article) (hnot : a ∉ l1) :
    a ∈ remove_duplicates (l1 ++ a :: l2) ↔ a ∈ remove_duplicates (l1 ++ [a]) := by
  unfold remove_duplicates
  rw [dedupeGo_append, dedupeGo_append]
  have hnotout : a ∉ dedupeGo ([], []) l1 :=
    fun hmem => hnot ((dedupeGo_sublist l1 ([], [])).subset hmem)
  by_cases h : dedupeAccepts (dedupeFinal ([], []) l1) a
  · simp [List.mem_append, hnotout, dedupeGo, h]
  · have h2 : a ∉ dedupeGo (dedupeFinal ([], []) l1) l2 :=
      not_mem_dedupeGo_of_rejected l2 _ _ h (stateLE_refl _)
    simp [List.mem_append, hnotout, dedupeGo, h, h2]

/-- Claim C2: deduplication is idempotent
(`dedupe(dedupe(items)) == dedupe(items)`), non-increasing in length,
order-preserving (the output is a sublist of the input), each item value
survives at most once, and a surviving item is the one accepted at the
first occurrence of its duplicate group (membership in the output is
decided by the items before the first occurrence alone). -/
theorem claim_c2_dedupe_algebra (l : List Article) :
    remove_duplicates (remove_duplicates l) = remove_duplicates l ∧
    (remove_duplicates l).length ≤ l.length ∧
    (remove_duplicates l).Sublist l ∧
    (∀ a : Article, (remove_duplicates l).count a ≤ 1) ∧
    (∀ (l1 l2 : List Article) (a : Article), l = l1 ++ a :: l2 → a ∉ l1 →
      (a ∈ remove_duplicates l ↔ a ∈ remove_duplicates (l1 ++ [a]))) := by
  refine ⟨dedupeGo_idem l ([], []), (dedupeGo_sublist l ([], [])).length_le,
    dedupeGo_sublist l ([], []), fun a => count_dedupeGo_le_one a l ([], []), ?_⟩
  intro l1 l2 a hl hnot
  subst hl
  exact dedupe_first_occurrence l1 l2 a hnot

def wArtA : Article := { title := "first story about robots", url := "http://a" }

def wArtB : Article := { title := "completely different news item", url := "http://b" }

/-- Witness for C2: the theorem applied at a concrete two-article input,
discharging the first-occurrence hypotheses there. -/
theorem claim_c2_witness :
    remove_duplicates (remove_duplicates [wArtA, wArtB]) = remove_duplicates [wArtA, wArtB] ∧
    (wArtA ∈ remove_duplicates [wArtA, wArtB] ↔ wArtA ∈ remove_duplicates [wArtA]) := by
  refine ⟨(claim_c2_dedupe_algebra [wArtA, wArtB]).1, ?_⟩
  have h := (claim_c2_dedupe_algebra [wArtA, wArtB]).2.2.2.2 [] [wArtB] wArtA rfl
    (by decide)
  exact h

def cxPaperA : PaperRec := { title := "first unique paper title", url := "http://same-url" }

def cxPaperB : PaperRec := { title := "second distinct paper name", url := "http://same-url" }

/-- Counterexample to C3 as stated: the papers deduplicator keys only on
titles, so two distinct papers sharing an identical (already normalized)
URL both survive the same run. -/
theorem claim_c3_counterexample :
    pwc_remove_duplicates [cxPaperA, cxPaperB] = [cxPaperA, cxPaperB] ∧
    cxPaperA ≠ cxPaperB ∧
    pyStrip (pyLower cxPaperA.url) = pyStrip (pyLower cxPaperB.url) := by decide

/-- Claim C3 (amended): in the news/RSS deduplicator no two surviving
items share a normalized title and no two share an identical non-empty
normalized URL; the papers deduplicator guarantees only pairwise
distinct normalized titles, not URL uniqueness. -/
theorem claim_c3_amended (articles : List Article) (papers : List PaperRec) :
    (remove_duplicates articles).Pairwise (fun a b => normTitle a ≠ normTitle b) ∧
    (remove_duplicates articles).Pairwise
      (fun a b => normUrl a ≠ "" → normUrl a ≠ normUrl b) ∧
    (pwc_remove_duplicates papers).Pairwise
      (fun p q => pwcNormTitle p ≠ pwcNormTitle q) :=
  ⟨(dedupeGo_titles articles ([], [])).2, (dedupeGo_urls articles ([], [])).2,
    (pwcGo_titles papers []).2⟩

/-- The reject rule of `_remove_duplicates` phrased against the list of
already-accepted articles: an exact normalized-title match, a non-empty
exact URL match, or the first 50 characters of the incoming normalized
title occurring as a substring anywhere inside an accepted normalized
title. -/
def specRejects (acc : List Article) (a : Article) : Prop :=
  (∃ b ∈ acc, normTitle b = normTitle a) ∨
  (normUrl a ≠ "" ∧ ∃ b ∈ acc, normUrl b = normUrl a) ∨
  (∃ b ∈ acc, pyIn (pyTake (normTitle a) 50) (normTitle b) = true)

instance (acc : List Article) (a : Article) : Decidable (specRejects acc a) := by
  unfold specRejects
  infer_instance

/-- Acceptance against the final seen sets coincides with the
accepted-list reject rule. -/
theorem accepts_final_iff (l : List Article) (a : Article) :
    dedupeAccepts (dedupeFinal ([], []) l) a ↔ ¬ specRejects (dedupeGo ([], []) l) a := by
  have ht := dedupeFinal_titles l ([], [])
  have hu := dedupeFinal_urls l ([], [])
  constructor
  · rintro ⟨h1, h2⟩ hs
    rcases hs with ⟨b, hb, hbeq⟩ | ⟨hne, b, hb, hbeq⟩ | ⟨b, hb, hbin⟩
    · exact h1 (Or.inl ((ht _).mpr (Or.inr ⟨b, hb, hbeq⟩)))
    · exact h1 (Or.inr ⟨hne, (hu _).mpr (Or.inr ⟨b, hb, hbeq, by rw [hbeq]; exact hne⟩)⟩)
    · exact h2 ⟨normTitle b, (ht _).mpr (Or.inr ⟨b, hb, rfl⟩), hbin⟩
  · intro hns
    constructor
    · intro hc
      rcases hc with hc | ⟨hne, hc⟩
      · rcases (ht _).mp hc with hfalse | ⟨b, hb, hbeq⟩
        · simp at hfalse
        · exact hns (Or.inl ⟨b, hb, hbeq⟩)
      · rcases (hu _).mp hc with hfalse | ⟨b, hb, hbeq, hbne⟩
        · simp at hfalse
        · exact hns (Or.inr (Or.inl ⟨hne, b, hb, hbeq⟩))
    · rintro ⟨t, htmem, htin⟩
      rcases (ht _).mp htmem with hfalse | ⟨b, hb, hbeq⟩
      · simp at hfalse
      · exact hns (Or.inr (Or.inr ⟨b, hb, by rw [hbeq]; exact htin⟩))

def cxArt1 : Article := { title := "zz abcdefghij", url := "http://u1" }

def cxArt2 : Article := { title := "abcdefghij", url := "http://u2" }

/-- Counterexample to C4 as stated: the similarity check is substring
containment, not a prefix test.  Here the second article matches none of
the three stated reject conditions (titles differ, URLs differ, and its
50-character prefix is not a prefix of the accepted title, occurring
only in the middle), yet `_remove_duplicates` rejects it. -/
theorem claim_c4_counterexample :
    remove_duplicates [cxArt1, cxArt2] = [cxArt1] ∧
    normTitle cxArt1 ≠ normTitle cxArt2 ∧
    normUrl cxArt1 ≠ normUrl cxArt2 ∧
    ((pyTake (normTitle cxArt2) 50).data.isPrefixOf (normTitle cxArt1).data) = false := by
  decide

/-- Claim C4 (amended): an item is rejected iff its normalized title
exactly matches an accepted one, or its non-empty normalized URL exactly
matches an accepted one, or the first 50 characters of its normalized
title occur as a contiguous substring anywhere within (not only as a
prefix of) an accepted normalized title; otherwise it is accepted and
recorded. -/
theorem claim_c4_amended (l : List Article) (a : Article) :
    remove_duplicates (l ++ [a]) =
      remove_duplicates l ++
        (if specRejects (remove_duplicates l) a then [] else [a]) := by
  unfold remove_duplicates
  rw [dedupeGo_append]
  congr 1
  rw [dedupeGo]
  by_cases h : specRejects (dedupeGo ([], []) l) a
  · rw [if_neg (fun hacc => (accepts_final_iff l a).mp hacc h), if_pos h]
    rfl
  · rw [if_pos ((accepts_final_iff l a).mpr h), if_neg h]
    rfl

/-! ## Topic classification: summarize_agent.py `cluster_items_by_topic`

Items are dicts read through `item.get(field, "")` plus
`item.get("relevance_score", 0)`; they are modelled as an association
list of string fields together with the relevance score (an integer in
tenths of a point, so the Python threshold 3.0 is 30 here). -/

structure PyItem where
  fields : List (String × String)
  relevance_score : Int
  deriving DecidableEq, Repr

/-- `str(item.get(field, ""))` (field values are strings). -/
def pyItemGet (it : PyItem) (k : String) : String :=
  match it.fields.find? (fun p => p.1 == k) with
  | some p => p.2
  | none => ""

/-- `" ".join([str(item.get(field, "")) for field in text_fields]).lower()`. -/
def itemText (it : PyItem) (text_fields : List String) : String :=
  pyLower (pyJoin " " (text_fields.map (pyItemGet it)))

/-- The `topic_clusters` table of `IntelligentSummarizeAgent.__init__`,
in definition order, keeping each cluster id and its keyword list. -/
def topic_clusters : List (String × List String) :=
  [("openai", ["openai", "chatgpt", "gpt-4", "gpt-5", "dall-e", "whisper", "o1"]),
   ("deepmind", ["deepmind", "gemini", "bard", "alphafold", "alphacode"]),
   ("humanoids",
    ["humanoid", "figure ai", "sanctuary ai", "1x technologies", "boston dynamics", "atlas"]),
   ("tesla_nvidia", ["tesla", "nvidia", "fsd", "autonomous", "self-driving", "cuda"]),
   ("anthropic", ["anthropic", "claude", "constitutional ai"]),
   ("regulation_ethics",
    ["regulation", "ethics", "safety", "bias", "privacy", "gdpr", "ai act"]),
   ("research_models",
    ["transformer", "llm", "foundation model", "multimodal", "reasoning"]),
   ("robotics_automation",
    ["robotics", "automation", "industrial", "manufacturing", "ros"]),
   ("general_ai",
    ["artificial intelligence", "machine learning", "neural network", "deep learning"])]

/-- `sum(1 for keyword in cluster_info["keywords"] if keyword in full_text)`. -/
def matchCount (keywords : List String) (txt : String) : Nat :=
  keywords.countP (fun kw => pyIn kw txt)

/-- The best-cluster scan: for each table entry in order, update the
running best on a strictly greater match count
(`if matches > max_matches`). -/
def bestClusterGo (txt : String) : List (String × List String) → Option String → Nat →
    Option String × Nat
  | [], best, maxm => (best, maxm)
  | (cid, kws) :: rest, best, maxm =>
    if maxm < matchCount kws txt then bestClusterGo txt rest (some cid) (matchCount kws txt)
    else bestClusterGo txt rest best maxm

/-- The per-item decision of the clustering loop:
`if best_cluster and max_matches > 0` appends the item to
`clusters[best_cluster]`, otherwise it goes to `unclustered`
(a Python string is truthy iff non-empty). -/
def chooseCluster (tf : List String) (it : PyItem) : Option String :=
  match bestClusterGo (itemText it tf) topic_clusters Option.none 0 with
  | (some cid, maxm) => if cid ≠ "" ∧ 0 < maxm then some cid else Option.none
  | (Option.none, _) => Option.none

/-- `clusters[k].append(v)` on a `defaultdict(list)` kept in insertion
order: append to the existing entry, or create the key at the end. -/
def dictAppend (m : List (String × List PyItem)) (k : String) (v : PyItem) :
    List (String × List PyItem) :=
  if ∃ p ∈ m, p.1 = k then m.map (fun p => if p.1 = k then (p.1, p.2 ++ [v]) else p)
  else m ++ [(k, [v])]

/-- `clusters[k] = vs` (assignment, overwriting any existing entry). -/
def dictSet (m : List (String × List PyItem)) (k : String) (vs : List PyItem) :
    List (String × List PyItem) :=
  if ∃ p ∈ m, p.1 = k then m.map (fun p => if p.1 = k then (p.1, vs) else p)
  else m ++ [(k, vs)]

/-- The main loop of `cluster_items_by_topic` over the items, carrying
the cluster map and the unclustered list. -/
def clusterLoop (tf : List String) : List PyItem → List (String × List PyItem) →
    List PyItem → List (String × List PyItem) × List PyItem
  | [], cl, uncl => (cl, uncl)
  | it :: rest, cl, uncl =>
    match chooseCluster tf it with
    | some cid => clusterLoop tf rest (dictAppend cl cid it) uncl
    | Option.none => clusterLoop tf rest cl (uncl ++ [it])

/-- `cluster_items_by_topic(items, text_fields)` from summarize_agent.py:
run the loop, then, if any unclustered item has relevance score above
3.0 (30 tenths), assign the list of those items to the key
`"general_ai"`, overwriting whatever that bucket held. -/
def cluster_items_by_topic (items : List PyItem) (text_fields : List String) :
    List (String × List PyItem) :=
  let r := clusterLoop text_fields items [] []
  if r.2 ≠ [] then
    let high := r.2.filter (fun x => 30 < x.relevance_score)
    if high ≠ [] then dictSet r.1 "general_ai" high else r.1
  else r.1

/-- Membership of an item in the bucket of a given cluster id. -/
def inBucket (m : List (String × List PyItem)) (c : String) (x : PyItem) : Prop :=
  ∃ l, (c, l) ∈ m ∧ x ∈ l

/-- Specification of the best-cluster scan: either no entry beats the
running maximum and the accumulator is returned unchanged, or the result
is the first table entry attaining the overall maximum count, which
strictly exceeds the initial maximum and all counts before it. -/
theorem bestClusterGo_spec (txt : String) :
    ∀ (tbl : List (String × List String)) (b : Option String) (m : Nat),
      ((∀ e ∈ tbl, matchCount e.2 txt ≤ m) ∧ bestClusterGo txt tbl b m = (b, m)) ∨
      (∃ pre c kws post, tbl = pre ++ (c, kws) :: post ∧
        m < matchCount kws txt ∧
        (∀ e ∈ pre, matchCount e.2 txt < matchCount kws txt) ∧
        (∀ e ∈ tbl, matchCount e.2 txt ≤ matchCount kws txt) ∧
        bestClusterGo txt tbl b m = (some c, matchCount kws txt)) := by
  intro tbl
  induction tbl with
  | nil =>
    intro b m
    exact Or.inl ⟨by simp, rfl⟩
  | cons e rest ih =>
    intro b m
    obtain ⟨cid, kws⟩ := e
    rw [bestClusterGo]
    by_cases hm : m < matchCount kws txt
    · rw [if_pos hm]
      rcases ih (some cid) (matchCount kws txt) with ⟨hall, heq⟩ |
        ⟨pre, c, kws2, post, htbl, hlt, hpre, hall, heq⟩
      · right
        refine ⟨[], cid, kws, rest, rfl, hm, by simp, ?_, heq⟩
        intro e2 he2
        rcases List.mem_cons.mp he2 with heq2 | he2
        · rw [heq2]
        · exact hall e2 he2
      · right
        refine ⟨(cid, kws) :: pre, c, kws2, post, by rw [htbl, List.cons_append], lt_trans hm hlt, ?_, ?_, heq⟩
        · intro e2 he2
          rcases List.mem_cons.mp he2 with heq2 | he2
          · rw [heq2]; exact hlt
          · exact hpre e2 he2
        · intro e2 he2
          rcases List.mem_cons.mp he2 with heq2 | he2
          · rw [heq2]; exact le_of_lt hlt
          · exact hall e2 (htbl ▸ he2)
    · rw [if_neg hm]
      push_neg at hm
      rcases ih b m with ⟨hall, heq⟩ | ⟨pre, c, kws2, post, htbl, hlt, hpre, hall, heq⟩
      · left
        refine ⟨?_, heq⟩
        intro e2 he2
        rcases List.mem_cons.mp he2 with heq2 | he2
        · rw [heq2]; exact hm
        · exact hall e2 he2
      · right
        refine ⟨(cid, kws) :: pre, c, kws2, post, by rw [htbl, List.cons_append], hlt, ?_, ?_, heq⟩
        · intro e2 he2
          rcases List.mem_cons.mp he2 with heq2 | he2
          · rw [heq2]; exact lt_of_le_of_lt hm hlt
          · exact hpre e2 he2
        · intro e2 he2
          rcases List.mem_cons.mp he2 with heq2 | he2
          · rw [heq2]; exact le_of_lt (lt_of_le_of_lt hm hlt)
          · exact hall e2 (htbl ▸ he2)

/-- Every cluster id in the table is a non-empty (truthy) string. -/
theorem topic_cluster_ids_truthy : ∀ e ∈ topic_clusters, e.1 ≠ "" := by decide

/-- An item matching at least one keyword is assigned a cluster. -/
theorem chooseCluster_isSome (tf : List String) (it : PyItem)
    (h : ∃ e ∈ topic_clusters, 0 < matchCount e.2 (itemText it tf)) :
    ∃ cid, chooseCluster tf it = some cid := by
  unfold chooseCluster
  rcases bestClusterGo_spec (itemText it tf) topic_clusters Option.none 0 with
    ⟨hall, heq⟩ | ⟨pre, c, kws, post, htbl, hlt, hpre, hall, heq⟩
  · obtain ⟨e, he, hpos⟩ := h
    exact absurd (hall e he) (by omega)
  · rw [heq]
    have hc : c ≠ "" := by
      apply topic_cluster_ids_truthy (c, kws)
      rw [htbl]
      exact List.mem_append_right _ (List.mem_cons_self _ _)
    exact ⟨c, if_pos ⟨hc, hlt⟩⟩

/-- The assigned cluster is the first table entry with the maximal
keyword-match count, and that count is positive. -/
theorem chooseCluster_spec (tf : List String) (it : PyItem) (cid : String)
    (h : chooseCluster tf it = some cid) :
    ∃ pre kws post, topic_clusters = pre ++ (cid, kws) :: post ∧
      0 < matchCount kws (itemText it tf) ∧
      (∀ e ∈ pre, matchCount e.2 (itemText it tf) < matchCount kws (itemText it tf)) ∧
      (∀ e ∈ topic_clusters,
        matchCount e.2 (itemText it tf) ≤ matchCount kws (itemText it tf)) := by
  unfold chooseCluster at h
  rcases bestClusterGo_spec (itemText it tf) topic_clusters Option.none 0 with
    ⟨hall, heq⟩ | ⟨pre, c, kws, post, htbl, hlt, hpre, hall, heq⟩
  · rw [heq] at h
    simp at h
  · rw [heq] at h
    dsimp only at h
    split_ifs at h with hcond
    obtain rfl : c = cid := Option.some.inj h
    exact ⟨pre, kws, post, htbl, hlt, hpre, hall⟩

theorem inBucket_cons (p : String × List PyItem) (m : List (String × List PyItem))
    (c : String) (x : PyItem) :
    inBucket (p :: m) c x ↔ (p.1 = c ∧ x ∈ p.2) ∨ inBucket m c x := by
  unfold inBucket
  constructor
  · rintro ⟨l, hl, hx⟩
    rcases List.mem_cons.mp hl with heq | hl
    · subst heq
      exact Or.inl ⟨rfl, hx⟩
    · exact Or.inr ⟨l, hl, hx⟩
  · rintro (⟨hc, hx⟩ | ⟨l, hl, hx⟩)
    · exact ⟨p.2, by rw [← hc, Prod.mk.eta]; exact List.mem_cons_self _ _, hx⟩
    · exact ⟨l, List.mem_cons_of_mem _ hl, hx⟩

theorem inBucket_mapAppend (k : String) (v : PyItem) :
    ∀ (m : List (String × List PyItem)) (c : String) (x : PyItem),
      inBucket (m.map (fun p => if p.1 = k then (p.1, p.2 ++ [v]) else p)) c x ↔
        (inBucket m c x ∨ (c = k ∧ x = v ∧ ∃ l, (k, l) ∈ m)) := by
  intro m
  induction m with
  | nil =>
    intro c x
    simp [inBucket]
  | cons p rest ih =>
    intro c x
    obtain ⟨p1, p2⟩ := p
    simp only [List.map_cons]
    rw [inBucket_cons, inBucket_cons, ih]
    by_cases hpk : p1 = k
    · subst hpk
      simp only [if_pos rfl]
      constructor
      · rintro (⟨hc, hx⟩ | h | ⟨hc, hv, l, hl⟩)
        · rcases List.mem_append.mp hx with hx2 | hx2
          · exact Or.inl (Or.inl ⟨hc, hx2⟩)
          · simp only [List.mem_singleton] at hx2
            exact Or.inr ⟨hc.symm, hx2, p2, List.mem_cons_self _ _⟩
        · exact Or.inl (Or.inr h)
        · exact Or.inr ⟨hc, hv, l, List.mem_cons_of_mem _ hl⟩
      · rintro ((⟨hc, hx⟩ | h) | ⟨hc, hv, l, hl⟩)
        · exact Or.inl ⟨hc, List.mem_append_left _ hx⟩
        · exact Or.inr (Or.inl h)
        · exact Or.inl ⟨hc.symm, List.mem_append_right _ (by simp [hv])⟩
    · simp only [if_neg hpk]
      constructor
      · rintro (⟨hc, hx⟩ | h | ⟨hc, hv, l, hl⟩)
        · exact Or.inl (Or.inl ⟨hc, hx⟩)
        · exact Or.inl (Or.inr h)
        · exact Or.inr ⟨hc, hv, l, List.mem_cons_of_mem _ hl⟩
      · rintro ((⟨hc, hx⟩ | h) | ⟨hc, hv, l, hl⟩)
        · exact Or.inl ⟨hc, hx⟩
        · exact Or.inr (Or.inl h)
        · rcases List.mem_cons.mp hl with heq | hl2
          · exact absurd (congrArg Prod.fst heq).symm hpk
          · exact Or.inr (Or.inr ⟨hc, hv, l, hl2⟩)

theorem inBucket_dictAppend (m : List (String × List PyItem)) (k : String) (v : PyItem)
    (c : String) (x : PyItem) :
    inBucket (dictAppend m k v) c x ↔ inBucket m c x ∨ (c = k ∧ x = v) := by
  unfold dictAppend
  split_ifs with hk
  · rw [inBucket_mapAppend]
    obtain ⟨p, hp, hpk⟩ := hk
    have hex : ∃ l, (k, l) ∈ m := ⟨p.2, by rw [← hpk, Prod.mk.eta]; exact hp⟩
    constructor
    · rintro (h | ⟨hc, hv, _⟩)
      · exact Or.inl h
      · exact Or.inr ⟨hc, hv⟩
    · rintro (h | ⟨hc, hv⟩)
      · exact Or.inl h
      · exact Or.inr ⟨hc, hv, hex⟩
  · unfold inBucket
    constructor
    · rintro ⟨l, hl, hx⟩
      rcases List.mem_append.mp hl with hl2 | hl2
      · exact Or.inl ⟨l, hl2, hx⟩
      · simp only [List.mem_singleton, Prod.mk.injEq] at hl2
        obtain ⟨hc, hlv⟩ := hl2
        subst hlv
        simp only [List.mem_singleton] at hx
        exact Or.inr ⟨hc, hx⟩
    · rintro (⟨l, hl, hx⟩ | ⟨hc, hx⟩)
      · exact ⟨l, List.mem_append_left _ hl, hx⟩
      · exact ⟨[v], List.mem_append_right _ (by simp [hc]), by simp [hx]⟩

/-- The clustering loop: bucket membership is initial membership plus
the per-item choice, and the unclustered list collects exactly the items
with no choice, in order. -/
theorem clusterLoop_spec (tf : List String) :
    ∀ (items : List PyItem) (cl : List (String × List PyItem)) (uncl : List PyItem),
      (∀ c x, inBucket (clusterLoop tf items cl uncl).1 c x ↔
        (inBucket cl c x ∨ (x ∈ items ∧ chooseCluster tf x = some c))) ∧
      (clusterLoop tf items cl uncl).2 =
        uncl ++ items.filter (fun x => (chooseCluster tf x).isNone) := by
  intro items
  induction items with
  | nil =>
    intro cl uncl
    constructor
    · intro c x
      simp [clusterLoop]
    · simp [clusterLoop]
  | cons it rest ih =>
    intro cl uncl
    rcases hch : chooseCluster tf it with _ | cid
    · rw [clusterLoop, hch]
      constructor
      · intro c x
        rw [((ih cl (uncl ++ [it])).1) c x]
        constructor
        · rintro (h | ⟨hxr, hxc⟩)
          · exact Or.inl h
          · exact Or.inr ⟨List.mem_cons_of_mem _ hxr, hxc⟩
        · rintro (h | ⟨hxm, hxc⟩)
          · exact Or.inl h
          · rcases List.mem_cons.mp hxm with heq | hxr
            · rw [heq, hch] at hxc
              exact absurd hxc (by simp)
            · exact Or.inr ⟨hxr, hxc⟩
      · rw [(ih cl (uncl ++ [it])).2, List.filter_cons]
        simp [hch]
    · rw [clusterLoop, hch]
      constructor
      · intro c x
        rw [((ih (dictAppend cl cid it) uncl).1) c x, inBucket_dictAppend]
        constructor
        · rintro ((h | ⟨hc, hx⟩) | ⟨hxr, hxc⟩)
          · exact Or.inl h
          · exact Or.inr ⟨by rw [hx]; exact List.mem_cons_self _ _, by rw [hx, hch, hc]⟩
          · exact Or.inr ⟨List.mem_cons_of_mem _ hxr, hxc⟩
        · rintro (h | ⟨hxm, hxc⟩)
          · exact Or.inl (Or.inl h)
          · rcases List.mem_cons.mp hxm with heq | hxr
            · rw [heq, hch] at hxc
              exact Or.inl (Or.inr ⟨(Option.some.inj hxc).symm, heq⟩)
            · exact Or.inr ⟨hxr, hxc⟩
      · rw [(ih (dictAppend cl cid it) uncl).2, List.filter_cons]
        simp [hch]

/-- Claim C1 (amended): provided no input item is simultaneously
keyword-free and of relevance score above 3.0 (30 tenths) — otherwise
the unclustered fallback assignment overwrites the `general_ai` bucket
and discards its keyword-matched items — every item matching at least
one cluster keyword lands in exactly one output bucket, namely the
earliest table entry with the maximal keyword-match count, and is never
absent from the classification output. -/
theorem claim_c1_classification (items : List PyItem) (tf : List String) (it : PyItem)
    (hno : ∀ x ∈ items, chooseCluster tf x = Option.none → x.relevance_score ≤ 30)
    (hit : it ∈ items)
    (hmatch : ∃ e ∈ topic_clusters, 0 < matchCount e.2 (itemText it tf)) :
    ∃ cid kws pre post,
      inBucket (cluster_items_by_topic items tf) cid it ∧
      (∀ c, inBucket (cluster_items_by_topic items tf) c it → c = cid) ∧
      topic_clusters = pre ++ (cid, kws) :: post ∧
      (∀ e ∈ topic_clusters,
        matchCount e.2 (itemText it tf) ≤ matchCount kws (itemText it tf)) ∧
      (∀ e ∈ pre, matchCount e.2 (itemText it tf) < matchCount kws (itemText it tf)) := by
  obtain ⟨cid, hch⟩ := chooseCluster_isSome tf it hmatch
  obtain ⟨pre, kws, post, htbl, hpos, hpre, hall⟩ := chooseCluster_spec tf it cid hch
  have hhigh : ((clusterLoop tf items [] []).2.filter (fun x => 30 < x.relevance_score)) = [] := by
    rw [(clusterLoop_spec tf items [] []).2]
    rw [List.nil_append]
    rw [List.filter_eq_nil]
    intro x hx
    obtain ⟨hxi, hxn⟩ := List.mem_filter.mp hx
    have hle := hno x hxi (Option.isNone_iff_eq_none.mp (by simpa using hxn))
    simp only [decide_eq_true_eq]
    omega
  have hout : cluster_items_by_topic items tf = (clusterLoop tf items [] []).1 := by
    unfold cluster_items_by_topic
    by_cases h2 : (clusterLoop tf items [] []).2 = []
    · simp [h2]
    · simp [h2, hhigh]
  have hmem : ∀ c x, inBucket (cluster_items_by_topic items tf) c x ↔
      (x ∈ items ∧ chooseCluster tf x = some c) := by
    intro c x
    rw [hout, ((clusterLoop_spec tf items [] []).1) c x]
    simp [inBucket]
  refine ⟨cid, kws, pre, post, ?_, ?_, htbl, hall, hpre⟩
  · exact (hmem cid it).mpr ⟨hit, hch⟩
  · intro c hc
    have := ((hmem c it).mp hc).2
    rw [hch] at this
    exact (Option.some.inj this).symm

def cxItemA : PyItem :=
  { fields := [("title", "machine learning stuff here")], relevance_score := 0 }

def cxItemB : PyItem := { fields := [("title", "zzz")], relevance_score := 50 }

/-- Counterexample to C1 as stated: `cxItemA` matches a keyword of the
`general_ai` cluster and is assigned to it, but a keyword-free
unclustered item of relevance above 3.0 makes the final
`clusters["general_ai"] = high_relevance` assignment overwrite that
bucket, so `cxItemA` is absent from the classification output. -/
theorem claim_c1_counterexample :
    chooseCluster ["title"] cxItemA = some "general_ai" ∧
    cluster_items_by_topic [cxItemA, cxItemB] ["title"] = [("general_ai", [cxItemB])] := by
  decide

def wItem : PyItem :=
  { fields := [("title", "openai ships a new chatgpt feature")], relevance_score := 0 }

/-- Witness for C1 at a concrete input: the single matching item is
classified, present, and in the earliest maximal bucket. -/
theorem claim_c1_witness :
    ∃ cid kws pre post,
      inBucket (cluster_items_by_topic [wItem] ["title"]) cid wItem ∧
      (∀ c, inBucket (cluster_items_by_topic [wItem] ["title"]) c wItem → c = cid) ∧
      topic_clusters = pre ++ (cid, kws) :: post ∧
      (∀ e ∈ topic_clusters,
        matchCount e.2 (itemText wItem ["title"]) ≤ matchCount kws (itemText wItem ["title"])) ∧
      (∀ e ∈ pre,
        matchCount e.2 (itemText wItem ["title"]) < matchCount kws (itemText wItem ["title"])) :=
  claim_c1_classification [wItem] ["title"] wItem (by decide) (by decide) (by decide)

/-! ## Fetching: utils.py `safe_request` and the `retry` decorator

One HTTP attempt either yields a response with a status code or raises a
network/timeout exception; `response.raise_for_status()` raises
`HTTPError` for every status of 400 and above.  The decorator
`@retry(tries=3, delay=1, backoff=2)` re-runs the body on any exception,
sleeping `delay` (then `delay * backoff`, ...) between attempts, and
re-raises the last exception when the attempts are exhausted. -/

inductive ReqAttempt where
  | resp (status : Nat)
  | netfail (msg : String)
  deriving DecidableEq, Repr

/-- One execution of the body of `safe_request`: `requests.get` either
raises (network error/timeout) or returns a response, and
`raise_for_status` turns any status of 400 or above into an exception
(logged and re-raised by the `except` clause). -/
def safeRequestOnce (att : ReqAttempt) : Except String Nat :=
  match att with
  | .resp s => if 400 ≤ s then .error ("HTTPError " ++ toString s) else .ok s
  | .netfail m => .error m

/-- The `retry` decorator: `retries` is the number of attempts remaining
after the current one (`tries - 1` at the start), `delay` the current
sleep.  Returns the final outcome together with the list of sleeps
performed, in order. -/
def retryRun (f : Nat → Except String Nat) (backoff : Nat) :
    Nat → Nat → Nat → Except String Nat × List Nat
  | i, 0, _ => (f i, [])
  | i, retries + 1, delay =>
    match f i with
    | .ok v => (.ok v, [])
    | .error _ =>
      let r := retryRun f backoff (i + 1) retries (delay * backoff)
      (r.1, delay :: r.2)

/-- `safe_request` as decorated: `@retry(tries=3, delay=1, backoff=2)`
around the request body, over a given sequence of attempt outcomes. -/
def safe_request (att : Nat → ReqAttempt) : Except String Nat × List Nat :=
  retryRun (fun i => safeRequestOnce (att i)) 2 0 2 1

def cx404Attempts : Nat → ReqAttempt :=
  fun i => if i = 0 then .resp 404 else .resp 200

/-- Counterexample to C5 as stated: a 404 response (a non-rate-limit
4xx) does not propagate immediately — `raise_for_status` raises, the
decorator sleeps 1 time unit and retries, and the second attempt is
made (here succeeding).  The claim requires no retry attempt after a
4xx. -/
theorem claim_c5_counterexample :
    safe_request cx404Attempts = (.ok 200, [1]) := rfl

/-- Claim C5 (amended): every failure — network error, timeout, or any
error status including 4xx — is retried identically: up to 3 attempts
with backoff sleeps of 1 then 2 time units, the last failure propagating
on exhaustion; a success stops the retrying immediately. -/
theorem claim_c5_retry (att : Nat → ReqAttempt) :
    (∀ e0 e1 e2, safeRequestOnce (att 0) = .error e0 →
      safeRequestOnce (att 1) = .error e1 → safeRequestOnce (att 2) = .error e2 →
      safe_request att = (.error e2, [1, 2])) ∧
    (∀ e0 v, safeRequestOnce (att 0) = .error e0 → safeRequestOnce (att 1) = .ok v →
      safe_request att = (.ok v, [1])) ∧
    (∀ v, safeRequestOnce (att 0) = .ok v → safe_request att = (.ok v, [])) := by
  refine ⟨?_, ?_, ?_⟩
  · intro e0 e1 e2 h0 h1 h2
    unfold safe_request
    rw [retryRun, h0]
    simp only
    rw [retryRun, h1]
    simp only
    rw [retryRun, h2]
  · intro e0 v h0 h1
    unfold safe_request
    rw [retryRun, h0]
    simp only
    rw [retryRun, h1]
  · intro v h0
    unfold safe_request
    rw [retryRun, h0]

def wFailAttempts : Nat → ReqAttempt := fun _ => .resp 500

/-- Witness for C5: all three attempts answer 500, so the fetch sleeps
1 then 2 and propagates the final HTTPError. -/
theorem claim_c5_witness :
    safe_request wFailAttempts = (.error ("HTTPError " ++ toString 500), [1, 2]) :=
  (claim_c5_retry wFailAttempts).1 ("HTTPError " ++ toString 500)
    ("HTTPError " ++ toString 500) ("HTTPError " ++ toString 500) rfl rfl rfl

/-! ## Rate limiting: utils.py `rate_limit`

The decorator closes over `last_called = [0.0]`; on each invocation it
computes `elapsed = time.time() - last_called[0]`, sleeps
`60 / calls_per_minute - elapsed` when that is positive, runs the
wrapped function, and then stores the completion time.  Time is modelled
by rationals; an invocation is described by its start time `t` and the
duration `dur` of the underlying call. -/

structure RLState where
  last : ℚ
  deriving DecidableEq, Repr

/-- One invocation of a `rate_limit(cpm)`-wrapped operation starting at
clock time `t` whose underlying call takes `dur`: returns the time the
underlying call fires and the updated `last_called` cell. -/
def rateLimitInvoke (cpm : ℚ) (st : RLState) (t dur : ℚ) : ℚ × RLState :=
  let elapsed := t - st.last
  let leftToWait := 60 / cpm - elapsed
  let fire := if 0 < leftToWait then t + leftToWait else t
  (fire, ⟨fire + dur⟩)

/-- The fire time of any invocation is at least the minimum interval
after the recorded previous-call time. -/
theorem rateLimitInvoke_fire_ge (cpm : ℚ) (st : RLState) (t dur : ℚ) :
    st.last + 60 / cpm ≤ (rateLimitInvoke cpm st t dur).1 := by
  unfold rateLimitInvoke
  dsimp only
  split_ifs with h
  · linarith
  · push_neg at h
    linarith

/-- Claim C8: for two consecutive invocations of the same wrapped
operation, the second underlying call fires no earlier than
`60 / calls_per_minute` after the recorded time of the first; at 30
calls per minute that is a wait of at least 2 seconds; and the very
first invocation (against the initial `last_called = 0.0` cell)
proceeds without waiting once the clock is past the interval. -/
theorem claim_c8_rate_limit (cpm : ℚ) (st : RLState) (t1 d1 t2 d2 u : ℚ)
    (hfirst : 60 / cpm ≤ u) :
    ((rateLimitInvoke cpm st t1 d1).2.last + 60 / cpm ≤
      (rateLimitInvoke cpm (rateLimitInvoke cpm st t1 d1).2 t2 d2).1) ∧
    ((rateLimitInvoke 30 st t1 d1).2.last + 2 ≤
      (rateLimitInvoke 30 (rateLimitInvoke 30 st t1 d1).2 t2 d2).1) ∧
    (rateLimitInvoke cpm ⟨0⟩ u 0).1 = u := by
  refine ⟨rateLimitInvoke_fire_ge cpm _ t2 d2, ?_, ?_⟩
  · have h := rateLimitInvoke_fire_ge 30 (rateLimitInvoke 30 st t1 d1).2 t2 d2
    have h30 : (60 : ℚ) / 30 = 2 := by norm_num
    rw [h30] at h
    exact h
  · unfold rateLimitInvoke
    dsimp only
    rw [if_neg (by linarith)]

/-- The division fact used to discharge the first-invocation hypothesis
of the C8 witness. -/
theorem sixty_div_thirty_le : (60 : ℚ) / 30 ≤ 100 := by norm_num

/-- Witness for C8 at `calls_per_minute = 30`, first call at time 100. -/
theorem claim_c8_witness :
    ((rateLimitInvoke 30 ⟨0⟩ 100 0).2.last + 60 / 30 ≤
      (rateLimitInvoke 30 (rateLimitInvoke 30 ⟨0⟩ 100 0).2 100 0).1) ∧
    ((rateLimitInvoke 30 ⟨0⟩ 100 0).2.last + 2 ≤
      (rateLimitInvoke 30 (rateLimitInvoke 30 ⟨0⟩ 100 0).2 100 0).1) ∧
    (rateLimitInvoke 30 ⟨0⟩ 100 0).1 = 100 :=
  claim_c8_rate_limit 30 ⟨0⟩ 100 0 100 0 100 sixty_div_thirty_le

/-! ## Dynamically typed provider payloads

Scalar JSON fields can hold a string, `None`, or (malformed) a number;
a missing dict key is `Option.none` at the field position. -/

inductive PyV where
  | vnone
  | vstr (s : String)
  | vint (n : Int)
  deriving DecidableEq, Repr

/-- Python truthiness of a scalar. -/
def PyV.truthy : PyV → Bool
  | .vnone => false
  | .vstr s => s != ""
  | .vint n => n != 0

/-- `.strip()` on a dynamic value: only strings have the method. -/
def PyV.strip : PyV → Except String String
  | .vstr s => .ok (pyStrip s)
  | .vnone => .error "AttributeError: NoneType has no attribute"
  | .vint _ => .error "AttributeError: int has no attribute"

/-- Python `str(v)`. -/
def PyV.toStr : PyV → String
  | .vstr s => s
  | .vnone => "None"
  | .vint n => toString n

/-- Python `x or default`. -/
def pyOr (v dflt : PyV) : PyV := if v.truthy then v else dflt

/-! ## News adapter: news_monitor.py -/

/-- The `source` field of a raw article: a dict (with an optional
`name` entry) or any other value to be passed through `str`. -/
inductive SourceV where
  | sdict (name : Option PyV)
  | splain (v : PyV)
  deriving DecidableEq, Repr

/-- One raw NewsAPI article record; `Option.none` marks a missing key. -/
structure RawArticle where
  title : Option PyV
  description : Option PyV
  content : Option PyV
  source : Option SourceV
  publishedAt : Option PyV
  url : Option PyV
  deriving DecidableEq, Repr

/-- The processed article dict built by `_process_article`. -/
structure ArticleData where
  title : String
  description : String
  url : PyV
  source : String
  published_at : PyV
  keyword : String
  relevance_score : Int
  is_headline : Bool
  content_preview : String
  deriving DecidableEq, Repr

/-- utils.py `truncate_text`. -/
def truncate_text (text : String) (maxLength : Nat) : String :=
  if pyLen text ≤ maxLength then text else pyTake text maxLength ++ "..."

/-- `(article.get(key) or "").strip()`. -/
def getOrEmptyStrip (f : Option PyV) : Except String String :=
  (pyOr (f.getD PyV.vnone) (PyV.vstr "")).strip

/-- The `ai_terms` list of `_calculate_relevance_score`. -/
def ai_terms : List String :=
  ["artificial intelligence", "machine learning", "deep learning",
   "neural network", "robotics", "automation", "autonomous",
   "ai model", "chatgpt", "llm", "language model", "computer vision",
   "natural language processing", "reinforcement learning"]

/-- The `important_orgs` list of `_calculate_relevance_score`. -/
def important_orgs : List String :=
  ["openai", "deepmind", "anthropic", "google", "meta", "microsoft",
   "tesla", "nvidia", "boston dynamics", "figure", "sanctuary ai"]

/-- `_calculate_relevance_score(title, description, keyword)`, in tenths
(2.0 is 20, the 0.3-per-term cap 1.5 is 15, and so on). -/
def calculate_relevance_score (title description keyword : String) : Int :=
  let title_lower := pyLower title
  let desc_lower := pyLower description
  let keyword_lower := pyLower keyword
  let full_text := title_lower ++ " " ++ desc_lower
  (if pyIn keyword_lower title_lower then (20 : Int) else 0) +
  (if pyIn keyword_lower desc_lower then (10 : Int) else 0) +
  min ((ai_terms.countP (fun t => pyIn t full_text) : Int) * 3) 15 +
  min ((important_orgs.countP (fun t => pyIn t full_text) : Int) * 4) 10

/-- The `headline_indicators` list of `_is_ai_robotics_headline`. -/
def headline_indicators : List String :=
  ["breakthrough", "announcement", "launches", "releases", "unveils",
   "introduces", "new model", "partnership", "acquisition", "funding",
   "milestone", "achievement", "record", "first time", "revolutionary"]

/-- `_is_ai_robotics_headline(title, description)`. -/
def is_ai_robotics_headline (title description : String) : Bool :=
  let full_text := pyLower title ++ " " ++ pyLower description
  headline_indicators.any (fun t => pyIn t full_text)

/-- The source-name cleanup of `_process_article`: a dict uses
`(source_info.get("name") or "").strip()`, anything else is passed
through `str(...).strip()`; a missing `source` key defaults to `{}`. -/
def sourceNameOf (src : Option SourceV) : Except String String :=
  match src.getD (SourceV.sdict Option.none) with
  | SourceV.sdict nm => (pyOr (nm.getD PyV.vnone) (PyV.vstr "")).strip
  | SourceV.splain v => Except.ok (pyStrip v.toStr)

/-- The publication-date handling of `_process_article`: a falsy value
passes through; a truthy string goes through
`datetime.fromisoformat(s.replace("Z", "+00:00"))` (modelled by
`isoParse`, already composed with `strftime`), the bare `except` falling
back to `s[:19]` when the string is long enough; a truthy non-string
raises inside the `except` handler (`len` of a non-sized value). -/
def publishedOf (isoParse : String → Option String) (pub : Option PyV) :
    Except String PyV :=
  let pubRaw := pub.getD (PyV.vstr "")
  if pubRaw.truthy then
    match pubRaw with
    | PyV.vstr s =>
      match isoParse (pyReplaceZ s) with
      | some formatted => Except.ok (PyV.vstr formatted)
      | Option.none => Except.ok (PyV.vstr (if 19 ≤ pyLen s then pyTake s 19 else s))
    | _ => Except.error "TypeError: object has no len"
  else Except.ok pubRaw

/-- `_process_article(article, keyword)` from news_monitor.py: strip the
three text fields, drop the record (`None`) when the stripped title is
empty or shorter than 10 characters, then assemble the scored dict.
The body/description is never checked. -/
def process_article (isoParse : String → Option String) (a : RawArticle)
    (keyword : String) : Except String (Option ArticleData) :=
  match getOrEmptyStrip a.title with
  | .error e => .error e
  | .ok title =>
    match getOrEmptyStrip a.description with
    | .error e => .error e
    | .ok description =>
      match getOrEmptyStrip a.content with
      | .error e => .error e
      | .ok content =>
        if title = "" ∨ pyLen title < 10 then .ok Option.none
        else
          match sourceNameOf a.source with
          | .error e => .error e
          | .ok sourceName0 =>
            match publishedOf isoParse a.publishedAt with
            | .error e => .error e
            | .ok published =>
              .ok (some
                { title := title,
                  description :=
                    if 400 < pyLen description then pyTake description 400 ++ "..."
                    else description,
                  url := a.url.getD (PyV.vstr ""),
                  source := if sourceName0 = "" then "Unknown Source" else sourceName0,
                  published_at := published,
                  keyword := keyword,
                  relevance_score := calculate_relevance_score title description keyword,
                  is_headline := is_ai_robotics_headline title description,
                  content_preview := truncate_text content 200 })

/-- The `irrelevant_terms` list of `_is_relevant_article`. -/
def irrelevant_terms : List String :=
  ["stock price", "market cap", "earnings report", "financial results",
   "share price", "quarterly report", "investor", "dividend",
   "stock market", "trading", "wall street"]

/-- The `ai_tech_terms` list of `_is_relevant_article`. -/
def ai_tech_terms : List String :=
  ["artificial intelligence", "machine learning", "robotics", "automation",
   "ai technology"]

/-- `_is_relevant_article(article, keyword)` (the keyword argument is
unused by the source too); 0.3 is 3 in tenths. -/
def is_relevant_article (ad : ArticleData) (keyword : String) : Bool :=
  if ad.relevance_score < 3 then false
  else
    let full_text := pyLower ad.title ++ " " ++ pyLower ad.description
    if irrelevant_terms.any (fun t => pyIn t full_text) then
      ai_tech_terms.any (fun t => pyIn t full_text)
    else true

/-- The article-processing loop of `search_news`, inside the `try`
block: any exception escapes to the handler. -/
def searchNewsLoop (isoParse : String → Option String) (keyword : String)
    (maxArticles : Nat) :
    List RawArticle → List ArticleData → Except String (List ArticleData)
  | [], acc => .ok acc
  | a :: rest, acc =>
    match process_article isoParse a keyword with
    | .error e => .error e
    | .ok (some ad) =>
      if is_relevant_article ad keyword then
        if maxArticles ≤ (acc ++ [ad]).length then .ok (acc ++ [ad])
        else searchNewsLoop isoParse keyword maxArticles rest (acc ++ [ad])
      else searchNewsLoop isoParse keyword maxArticles rest acc
    | .ok Option.none => searchNewsLoop isoParse keyword maxArticles rest acc

/-- `search_news` after a 200 response: the whole loop sits inside the
`try`, and the `except` handler returns the empty list, discarding every
article already processed. -/
def search_news (isoParse : String → Option String) (keyword : String)
    (maxArticles : Nat) (articles : List RawArticle) : List ArticleData :=
  match searchNewsLoop isoParse keyword maxArticles articles [] with
  | .ok l => l
  | .error _ => []

/-! ## GitHub adapter: github_monitor.py `get_recent_commits` -/

structure RawAuthor where
  name : Option String
  date : Option String
  deriving DecidableEq, Repr

structure RawCommitInner where
  message : Option String
  author : Option RawAuthor
  deriving DecidableEq, Repr

structure RawCommit where
  sha : Option String
  commit : Option RawCommitInner
  html_url : Option String
  deriving DecidableEq, Repr

structure CommitData where
  repo : String
  sha : String
  message : String
  author : String
  date : String
  url : String
  deriving DecidableEq, Repr

/-- Python `d[key]` : raises `KeyError` on a missing key. -/
def getKey {α : Type} (v : Option α) (key : String) : Except String α :=
  match v with
  | some x => .ok x
  | Option.none => .error ("KeyError: " ++ key)

/-- Building one commit dict inside the loop of `get_recent_commits`:
every field access is a plain subscript and can raise. -/
def processCommit (repo : String) (c : RawCommit) : Except String CommitData :=
  match getKey c.sha "sha" with
  | .error e => .error e
  | .ok sha =>
    match getKey c.commit "commit" with
    | .error e => .error e
    | .ok inner =>
      match getKey inner.message "message" with
      | .error e => .error e
      | .ok msg =>
        match getKey inner.author "author" with
        | .error e => .error e
        | .ok auth =>
          match getKey auth.name "name" with
          | .error e => .error e
          | .ok name =>
            match getKey auth.date "date" with
            | .error e => .error e
            | .ok date =>
              match getKey c.html_url "html_url" with
              | .error e => .error e
              | .ok url =>
                .ok { repo := repo, sha := pyTake sha 8, message := firstLine msg,
                      author := name, date := date, url := url }

/-- The processing loop over the decoded response. -/
def processCommits (repo : String) : List RawCommit → Except String (List CommitData)
  | [] => .ok []
  | c :: rest =>
    match processCommit repo c with
    | .error e => .error e
    | .ok d =>
      match processCommits repo rest with
      | .error e => .error e
      | .ok ds => .ok (d :: ds)

/-- `get_recent_commits` after the response: the loop sits inside the
`try`, and the `except` handler returns `[]`, discarding every commit
already processed. -/
def get_recent_commits (repo : String) (commits : List RawCommit) : List CommitData :=
  match processCommits repo commits with
  | .ok l => l
  | .error _ => []

/-! ## Papers adapter: paperswithcode_monitor.py -/

/-- One entry of the raw `tasks`/`methods` lists: a dict (with an
optional `name` key) or any other value, stored via `str(task)`. -/
inductive TaskV where
  | tdict (name : Option PyV)
  | tother (s : String)
  deriving DecidableEq, Repr

/-- The raw `proceeding` value: a dict (with an optional `url` key) or
some other truthy value. -/
inductive ProcV where
  | pdict (url : Option PyV)
  | pother
  deriving DecidableEq, Repr

/-- One raw Papers With Code record; `Option.none` marks a missing key
(and, for `tasks`/`methods`/`proceeding`, also a falsy value, which the
source skips identically). -/
structure RawPaper where
  title : Option PyV
  abstract : Option PyV
  url_abs : Option PyV
  published : Option PyV
  tasks : Option (List TaskV)
  methods : Option (List TaskV)
  proceeding : Option ProcV
  url_pdf : Option PyV
  deriving DecidableEq, Repr

/-- The parsed paper dict built by `_parse_paper_data`. -/
structure PaperInfo where
  title : String
  abstract : String
  url : PyV
  published : PyV
  tasks : List PyV
  methods : List PyV
  repository : PyV
  query : String
  relevance_score : Int
  has_top_org : Bool
  paper_type : String
  deriving DecidableEq, Repr

/-- The tasks/methods extraction: take the first three entries, reading
`task.get("name", "")` from dicts and `str(task)` otherwise. -/
def extractTags (raw : Option (List TaskV)) : List PyV :=
  match raw with
  | some l =>
    if l.isEmpty then []
    else (l.take 3).map (fun t =>
      match t with
      | TaskV.tdict nm => nm.getD (PyV.vstr "")
      | TaskV.tother s => PyV.vstr s)
  | Option.none => []

/-- Python `" ".join(values)` : raises `TypeError` when a value is not a
string. -/
def pyJoinVals (sep : String) (l : List PyV) : Except String String :=
  match l.mapM (fun v => match v with | PyV.vstr s => some s | _ => Option.none) with
  | some strs => .ok (pyJoin sep strs)
  | Option.none => .error "TypeError: join of non-string"

/-- The `top_orgs` list of `_check_top_organization`. -/
def top_orgs : List String :=
  ["deepmind", "openai", "anthropic", "google", "meta", "microsoft",
   "stanford", "mit", "berkeley", "carnegie mellon", "cmu",
   "boston dynamics", "sanctuary ai", "1x technologies", "1x",
   "tesla", "nvidia", "fair", "google research", "harvard",
   "princeton", "yale", "caltech", "eth zurich", "toronto",
   "mila", "oxford", "cambridge", "imperial college"]

/-- `_check_top_organization(title, abstract)`. -/
def check_top_organization (title abstract : String) : Bool :=
  let full_text := pyLower title ++ " " ++ pyLower abstract
  top_orgs.any (fun o => pyIn o full_text)

/-- `_classify_paper_type(title, abstract, tasks, methods)` (the tasks
and methods arguments are unused by the source too). -/
def classify_paper_type (title abstract : String) (tasks methods : List PyV) : String :=
  let full_text := pyLower title ++ " " ++ pyLower abstract
  if ["translation", "machine translation", "multilingual"].any
      (fun t => pyIn t full_text) then "type:Translation"
  else if ["foundation model", "large language model", "llm"].any
      (fun t => pyIn t full_text) then "type:Foundation Model"
  else if ["robot", "robotics", "manipulation", "navigation"].any
      (fun t => pyIn t full_text) then "type:Robotics"
  else if ["autonomous", "self-driving", "driving"].any
      (fun t => pyIn t full_text) then "type:Autonomous Systems"
  else if ["computer vision", "image", "visual"].any
      (fun t => pyIn t full_text) then "type:Computer Vision"
  else if ["reinforcement learning", "policy", "rl"].any
      (fun t => pyIn t full_text) then "type:Reinforcement Learning"
  else if ["multimodal", "vision-language"].any
      (fun t => pyIn t full_text) then "type:Multimodal"
  else "type:General AI"

/-- The `high_value_orgs` weight table (tenths). -/
def high_value_orgs : List (String × Int) :=
  [("deepmind", 30), ("openai", 30), ("anthropic", 25), ("google", 20),
   ("microsoft", 20), ("nvidia", 25), ("tesla", 25), ("meta", 20),
   ("stanford", 20), ("mit", 20), ("berkeley", 20), ("cmu", 20),
   ("boston dynamics", 30), ("sanctuary ai", 30), ("1x technologies", 30),
   ("figure ai", 30), ("autonomous", 20), ("robotics", 20)]

/-- The `high_impact_tasks` weight table (tenths). -/
def high_impact_tasks : List (String × Int) :=
  [("robotics", 30), ("autonomous-driving", 30), ("reinforcement-learning", 25),
   ("language-modeling", 20), ("computer-vision", 15), ("object-detection", 15),
   ("human-pose-estimation", 20), ("natural-language-processing", 20),
   ("machine-translation", 15), ("question-answering", 15)]

/-- The `cutting_edge_methods` weight table (tenths). -/
def cutting_edge_methods : List (String × Int) :=
  [("transformer", 20), ("foundation model", 25), ("diffusion", 20),
   ("attention mechanism", 15), ("multimodal", 20), ("few-shot", 15),
   ("zero-shot", 15), ("reinforcement learning", 20), ("neural network", 10),
   ("deep learning", 10), ("gpt", 20), ("bert", 15), ("llama", 20)]

/-- The `advanced_ai_terms` weight table (tenths). -/
def advanced_ai_terms : List (String × Int) :=
  [("foundation model", 25), ("large language model", 20), ("multimodal", 20),
   ("embodied ai", 30), ("humanoid", 30), ("autonomous", 20),
   ("policy gradient", 20), ("imitation learning", 20), ("sim-to-real", 25),
   ("robot learning", 30), ("manipulation", 20), ("navigation", 15),
   ("reasoning", 20), ("planning", 15), ("control", 15)]

/-- `score += weight` for every table entry found in the text. -/
def sumWeights (tbl : List (String × Int)) (txt : String) : Int :=
  tbl.foldl (fun acc e => if pyIn e.1 txt then acc + e.2 else acc) 0

/-- `_calculate_relevance(title, abstract, tasks, methods, query)`, in
tenths (4.0 is 40, 6.5 is 65, ...).  The `" ".join` calls raise when a
tag value is not a string; the trailing `_classify_paper_type` call of
the source discards its result and is pure, so it is omitted. -/
def pwc_calculate_relevance (title abstract : String) (tasks methods : List PyV)
    (query : String) : Except String Int :=
  match pyJoinVals " " tasks with
  | .error e => .error e
  | .ok task_join =>
    match pyJoinVals " " methods with
    | .error e => .error e
    | .ok method_join =>
      let title_lower := pyLower title
      let abstract_lower := pyLower abstract
      let query_lower := pyLower query
      let full_text := title_lower ++ " " ++ abstract_lower
      let task_text := pyLower task_join
      let method_text := pyLower method_join
      .ok ((if pyIn query_lower title_lower then (40 : Int) else 0) +
        (if pyIn query_lower abstract_lower then (20 : Int) else 0) +
        sumWeights high_value_orgs full_text +
        (if check_top_organization title abstract then (15 : Int) else 0) +
        sumWeights high_impact_tasks task_text +
        sumWeights cutting_edge_methods method_text +
        sumWeights advanced_ai_terms full_text)

/-- The URL extraction of `_parse_paper_data`: a truthy string not
starting with `http` is prefixed with the site root; a truthy non-string
raises at `.startswith`. -/
def paperUrlOf (url_abs : Option PyV) : Except String PyV :=
  let raw := url_abs.getD (PyV.vstr "")
  if raw.truthy then
    match raw with
    | PyV.vstr s =>
      Except.ok (if ¬ pyStartsWith s "http" then PyV.vstr ("https://paperswithcode.com" ++ s)
        else PyV.vstr s)
    | _ => Except.error "AttributeError: startswith"
  else Except.ok raw

/-- The publication-date handling of `_parse_paper_data` (note the
fallback here is `s[:10]` or the empty string). -/
def pwcPublishedOf (pwcIso : String → Option String) (pub : Option PyV) :
    Except String PyV :=
  let pubRaw := pub.getD (PyV.vstr "")
  if pubRaw.truthy then
    match pubRaw with
    | PyV.vstr s =>
      match pwcIso (pyReplaceZ s) with
      | some formatted => Except.ok (PyV.vstr formatted)
      | Option.none => Except.ok (PyV.vstr (if 10 ≤ pyLen s then pyTake s 10 else ""))
    | _ => Except.error "TypeError: object has no len"
  else Except.ok pubRaw

/-- The repository extraction of `_parse_paper_data`. -/
def repositoryOf (proceeding : Option ProcV) (url_pdf : Option PyV) : PyV :=
  let repository0 : PyV :=
    match proceeding with
    | some (ProcV.pdict u) => u.getD (PyV.vstr "")
    | some ProcV.pother => PyV.vstr ""
    | Option.none => PyV.vstr ""
  if ¬ repository0.truthy then
    match url_pdf with
    | some pdf => if pyIn "github.com" (pyLower pdf.toStr) then pdf else repository0
    | Option.none => repository0
  else repository0

/-- The body of `_parse_paper_data` inside its `try`. -/
def parsePaperBody (pwcIso : String → Option String) (r : RawPaper) (query : String) :
    Except String (Option PaperInfo) :=
  match (r.title.getD (PyV.vstr "")).strip with
  | .error e => .error e
  | .ok title =>
    match (r.abstract.getD (PyV.vstr "")).strip with
    | .error e => .error e
    | .ok abstract =>
      if title = "" ∨ pyLen title < 10 then .ok Option.none
      else
        match paperUrlOf r.url_abs with
        | .error e => .error e
        | .ok paper_url =>
          match pwcPublishedOf pwcIso r.published with
          | .error e => .error e
          | .ok published =>
            match pwc_calculate_relevance title abstract (extractTags r.tasks)
                (extractTags r.methods) query with
            | .error e => .error e
            | .ok relevance =>
              .ok (some
                { title := title,
                  abstract :=
                    if 500 < pyLen abstract then pyTake abstract 500 ++ "..." else abstract,
                  url := paper_url,
                  published := published,
                  tasks := (extractTags r.tasks).filter PyV.truthy,
                  methods := (extractTags r.methods).filter PyV.truthy,
                  repository := repositoryOf r.proceeding r.url_pdf,
                  query := query,
                  relevance_score := relevance,
                  has_top_org := check_top_organization title abstract,
                  paper_type := classify_paper_type title abstract (extractTags r.tasks)
                    (extractTags r.methods) })

/-- `_parse_paper_data(paper_data, query)`: the body runs inside
`try ... except`, a per-record handler that turns any exception into
`None`, skipping just that record. -/
def parse_paper_data (pwcIso : String → Option String) (r : RawPaper) (query : String) :
    Option PaperInfo :=
  match parsePaperBody pwcIso r query with
  | .ok o => o
  | .error _ => Option.none

/-- The `high_value_keywords` list of `_is_recent_and_relevant`. -/
def pwc_high_value_keywords : List String :=
  ["deepmind", "openai", "anthropic", "robotics", "humanoid", "1x"]

/-- The relevance-threshold part of `_is_recent_and_relevant` (6.5 is
65, 4.0 is 40, 3.0 is 30 in tenths). -/
def relevanceGate (p : PaperInfo) : Bool :=
  if 65 < p.relevance_score then true
  else if p.has_top_org ∧ 40 < p.relevance_score then true
  else if pwc_high_value_keywords.any (fun kw => pyIn kw (pyLower p.title)) then
    decide (30 < p.relevance_score)
  else false

/-- `_is_recent_and_relevant(paper, query)`: a truthy published string
is parsed by `datetime.strptime` (modelled by `strp`, returning a time
in days); a parsed date older than `now - 180` days drops the paper
outright; a parse failure (or a non-string value, whose `strptime`
raises `TypeError` into the same bare `except`) keeps it; then the
relevance thresholds decide. -/
def is_recent_and_relevant (strp : String → Option Int) (now : Int) (p : PaperInfo) :
    Bool :=
  if p.published.truthy then
    match p.published with
    | PyV.vstr s =>
      match strp s with
      | some d => if d < now - 180 then false else relevanceGate p
      | Option.none => relevanceGate p
    | _ => relevanceGate p
  else relevanceGate p

/-- The paper-processing loop of `search_papers` over the truncated
result list: a `None` from the parser is skipped individually. -/
def searchPapersLoop (pwcIso : String → Option String) (strp : String → Option Int)
    (now : Int) (query : String) (maxResults : Nat) :
    List RawPaper → List PaperInfo → List PaperInfo
  | [], acc => acc
  | r :: rest, acc =>
    match parse_paper_data pwcIso r query with
    | some p =>
      if is_recent_and_relevant strp now p then
        if maxResults ≤ (acc ++ [p]).length then acc ++ [p]
        else searchPapersLoop pwcIso strp now query maxResults rest (acc ++ [p])
      else searchPapersLoop pwcIso strp now query maxResults rest acc
    | Option.none => searchPapersLoop pwcIso strp now query maxResults rest acc

/-- Claim C7: a parsed publication date older than the 180-day window
drops the paper regardless of its relevance score; a date inside the
window (such as 179 days old) leaves the decision to the relevance
thresholds alone; an unparsable or missing date never drops the paper. -/
theorem claim_c7_date_filter (strp : String → Option Int) (now : Int) (p : PaperInfo) :
    (∀ s d, p.published = PyV.vstr s → s ≠ "" → strp s = some d → d < now - 180 →
      is_recent_and_relevant strp now p = false) ∧
    (∀ s d, p.published = PyV.vstr s → strp s = some d → now - 180 ≤ d →
      is_recent_and_relevant strp now p = relevanceGate p) ∧
    (∀ s, p.published = PyV.vstr s → strp s = Option.none →
      is_recent_and_relevant strp now p = relevanceGate p) ∧
    (p.published.truthy = false → is_recent_and_relevant strp now p = relevanceGate p) := by
  refine ⟨?_, ?_, ?_, ?_⟩
  · intro s d hp hs hd hlt
    unfold is_recent_and_relevant
    rw [hp]
    have htr : (PyV.vstr s).truthy = true := by
      simp [PyV.truthy]
      exact hs
    rw [if_pos htr]
    dsimp only
    rw [hd]
    dsimp only
    rw [if_pos hlt]
  · intro s d hp hd hge
    unfold is_recent_and_relevant
    rw [hp]
    by_cases hs : s = ""
    · rw [if_neg (by simp [PyV.truthy, hs])]
    · rw [if_pos (by simp [PyV.truthy]; exact hs)]
      dsimp only
      rw [hd]
      dsimp only
      rw [if_neg (by omega)]
  · intro s hp hnone
    unfold is_recent_and_relevant
    rw [hp]
    by_cases hs : s = ""
    · rw [if_neg (by simp [PyV.truthy, hs])]
    · rw [if_pos (by simp [PyV.truthy]; exact hs)]
      dsimp only
      rw [hnone]
  · intro hfalse
    unfold is_recent_and_relevant
    rw [if_neg (by simp [hfalse])]

def wStrp : String → Option Int :=
  fun s => if s = "2024-01-01" then some (-181) else Option.none

def wPaper : PaperInfo :=
  { title := "some unrelated paper title", abstract := "", url := PyV.vstr "",
    published := PyV.vstr "2024-01-01", tasks := [], methods := [],
    repository := PyV.vstr "", query := "q", relevance_score := 1000,
    has_top_org := true, paper_type := "type:General AI" }

/-- Witness for C7: a 181-day-old paper (now = 0) is dropped by the date
filter even though its relevance gate alone would keep it. -/
theorem claim_c7_witness :
    is_recent_and_relevant wStrp 0 wPaper = false ∧ relevanceGate wPaper = true :=
  ⟨(claim_c7_date_filter wStrp 0 wPaper).1 "2024-01-01" (-181) rfl (by decide) rfl
    (by decide), by decide⟩

/-- Any raising record makes the whole commit-processing loop raise. -/
theorem processCommits_error (repo : String) :
    ∀ commits : List RawCommit,
      (∃ c ∈ commits, ∃ e, processCommit repo c = .error e) →
      ∃ e2, processCommits repo commits = .error e2 := by
  intro commits
  induction commits with
  | nil =>
    rintro ⟨c, hc, _⟩
    simp at hc
  | cons c rest ih =>
    rintro ⟨c2, hc2, e, he⟩
    rcases List.mem_cons.mp hc2 with heq | hmem
    · subst heq
      exact ⟨e, by rw [processCommits, he]⟩
    · cases hpc : processCommit repo c with
      | error e2 => exact ⟨e2, by rw [processCommits, hpc]⟩
      | ok d =>
        obtain ⟨e3, he3⟩ := ih ⟨c2, hmem, e, he⟩
        exact ⟨e3, by rw [processCommits, hpc, he3]⟩

/-- In the papers loop a record the parser turns into `None` is skipped
without touching anything else. -/
theorem searchPapersLoop_skip (pwcIso : String → Option String)
    (strp : String → Option Int) (now : Int) (query : String) (maxResults : Nat)
    (bad : RawPaper) (hbad : parse_paper_data pwcIso bad query = Option.none) :
    ∀ (l1 l2 : List RawPaper) (acc : List PaperInfo),
      searchPapersLoop pwcIso strp now query maxResults (l1 ++ bad :: l2) acc =
        searchPapersLoop pwcIso strp now query maxResults (l1 ++ l2) acc := by
  intro l1
  induction l1 with
  | nil =>
    intro l2 acc
    rw [List.nil_append, List.nil_append, searchPapersLoop, hbad]
  | cons r rest ih =>
    intro l2 acc
    rw [List.cons_append, List.cons_append, searchPapersLoop, searchPapersLoop]
    cases hp : parse_paper_data pwcIso r query with
    | none => exact ih l2 acc
    | some p =>
      dsimp only
      split_ifs with hrel hmax
      · rfl
      · exact ih l2 (acc ++ [p])
      · exact ih l2 acc

/-- In the news loop a record whose processing raises aborts the whole
run with that exception, provided the loop reaches it — which the
length bound guarantees, since the early `break` needs `max_articles`
accepted articles first. -/
theorem searchNewsLoop_error (isoParse : String → Option String) (keyword : String)
    (maxArticles : Nat) (bad : RawArticle) (err : String)
    (hbad : process_article isoParse bad keyword = .error err) :
    ∀ (l1 l2 : List RawArticle) (acc : List ArticleData),
      acc.length + l1.length < maxArticles →
      ∃ e2, searchNewsLoop isoParse keyword maxArticles (l1 ++ bad :: l2) acc =
        .error e2 := by
  intro l1
  induction l1 with
  | nil =>
    intro l2 acc hlen
    exact ⟨err, by rw [List.nil_append, searchNewsLoop, hbad]⟩
  | cons a rest ih =>
    intro l2 acc hlen
    rw [List.length_cons] at hlen
    rw [List.cons_append, searchNewsLoop]
    cases hp : process_article isoParse a keyword with
    | error e => exact ⟨e, rfl⟩
    | ok oa =>
      cases oa with
      | none => exact ih l2 acc (by omega)
      | some ad =>
        dsimp only
        split_ifs with hrel hmax
        · exfalso
          rw [List.length_append, List.length_singleton] at hmax
          omega
        · exact ih l2 (acc ++ [ad])
            (by rw [List.length_append, List.length_singleton]; omega)
        · exact ih l2 acc (by omega)

/-- Claim C6 (amended): in the papers adapter a malformed record is
skipped individually (the per-record `try` returns `None`), while in the
github adapter an exception raised while processing any single record
aborts the whole fetch, which returns the empty list; likewise in the
news adapter, whose processing loop sits inside one `try` block: a
record whose processing raises — reached before the per-keyword article
cap stops the loop — makes `search_news` return the empty list,
discarding every article already processed. -/
theorem claim_c6_error_handling (repo : String) (commits : List RawCommit)
    (pwcIso : String → Option String) (strp : String → Option Int) (now : Int)
    (query : String) (maxResults : Nat) (l1 l2 : List RawPaper) (bad : RawPaper)
    (acc : List PaperInfo) (isoParse : String → Option String) (keyword : String)
    (maxArticles : Nat) (n1 n2 : List RawArticle) (badA : RawArticle)
    (hcommit : ∃ c ∈ commits, ∃ e, processCommit repo c = .error e)
    (hbad : parse_paper_data pwcIso bad query = Option.none)
    (hbadA : ∃ e, process_article isoParse badA keyword = .error e)
    (hroom : n1.length < maxArticles) :
    get_recent_commits repo commits = [] ∧
    searchPapersLoop pwcIso strp now query maxResults (l1 ++ bad :: l2) acc =
      searchPapersLoop pwcIso strp now query maxResults (l1 ++ l2) acc ∧
    search_news isoParse keyword maxArticles (n1 ++ badA :: n2) = [] := by
  refine ⟨?_, ?_, ?_⟩
  · obtain ⟨e2, he2⟩ := processCommits_error repo commits hcommit
    unfold get_recent_commits
    rw [he2]
  · exact searchPapersLoop_skip pwcIso strp now query maxResults bad hbad l1 l2 acc
  · obtain ⟨err, herr⟩ := hbadA
    obtain ⟨e2, he2⟩ := searchNewsLoop_error isoParse keyword maxArticles badA err herr
      n1 n2 [] (by simpa using hroom)
    unfold search_news
    rw [he2]

def cxGoodInner : RawCommitInner :=
  { message := some "Fix registry bug",
    author := some { name := some "Alice", date := some "2024-05-01" } }

def cxGoodCommit : RawCommit :=
  { sha := some "abcdef123456", commit := some cxGoodInner,
    html_url := some "http://c/1" }

def cxBadInner : RawCommitInner :=
  { message := some "Update docs",
    author := some { name := some "Bob", date := some "2024-05-02" } }

def cxBadCommit : RawCommit :=
  { sha := Option.none, commit := some cxBadInner, html_url := some "http://c/2" }

/-- Counterexample to C6 as stated: one malformed commit record (missing
`sha`) makes `get_recent_commits` return the empty list, losing the
well-formed record which, alone, would have been returned normalized. -/
theorem claim_c6_counterexample :
    get_recent_commits "org/repo" [cxGoodCommit, cxBadCommit] = [] ∧
    get_recent_commits "org/repo" [cxGoodCommit] =
      [{ repo := "org/repo", sha := "abcdef12", message := "Fix registry bug",
         author := "Alice", date := "2024-05-01", url := "http://c/1" }] := by
  decide

def cxBadPaper : RawPaper :=
  { title := some PyV.vnone, abstract := Option.none, url_abs := Option.none,
    published := Option.none, tasks := Option.none, methods := Option.none,
    proceeding := Option.none, url_pdf := Option.none }

def cxBadArticle : RawArticle :=
  { title := some (PyV.vstr "A Perfectly Valid Headline"),
    description := some (PyV.vstr "body"), content := some (PyV.vstr ""),
    source := Option.none, publishedAt := some (PyV.vint 5),
    url := some (PyV.vstr "http://b") }

/-- Witness for C6: a commit list holding one malformed record yields
`[]`; a `None`-valued paper title (whose `.strip()` raises into the
per-record handler) is skipped without affecting the papers loop; and a
news article with a non-string `publishedAt` (whose handler raises at
`len`) makes `search_news` return the empty list. -/
theorem claim_c6_witness :
    get_recent_commits "org/repo" [cxBadCommit] = [] ∧
    searchPapersLoop (fun _ => Option.none) (fun _ => Option.none) 0 "q" 5
        ([] ++ cxBadPaper :: []) [] =
      searchPapersLoop (fun _ => Option.none) (fun _ => Option.none) 0 "q" 5
        ([] ++ []) [] ∧
    search_news (fun _ => Option.none) "ai" 10 ([] ++ cxBadArticle :: []) = [] :=
  claim_c6_error_handling "org/repo" [cxBadCommit] (fun _ => Option.none)
    (fun _ => Option.none) 0 "q" 5 [] [] cxBadPaper []
    (fun _ => Option.none) "ai" 10 [] [] cxBadArticle
    ⟨cxBadCommit, List.mem_cons_self _ _, "KeyError: sha", rfl⟩ rfl
    ⟨"TypeError: object has no len", rfl⟩ (by decide)

/-! ## RSS adapter: rss_news_monitor.py `_process_rss_entry`

The date parsers (`datetime(*published_parsed[:6])` with `strftime`, and
the ordered `strptime` format attempts of `_is_recent_article`) are
standard-library environment and are abstracted: the former as a
per-entry outcome stored in the record, the latter as a parameter
returning a time in days. -/

/-- The characters after a `<`: when they match `[^>]+>`, return the
remainder after the closing `>`. -/
def dropTagGo : List Char → Option (List Char)
  | [] => Option.none
  | c :: t => if c = '>' then some t else dropTagGo t

def dropTag : List Char → Option (List Char)
  | [] => Option.none
  | c :: t => if c = '>' then Option.none else dropTagGo t

/-- `re.sub` with pattern `<[^>]+>` and empty replacement: remove every
HTML tag, scanning left to right; the fuel argument (the input length
suffices) keeps the recursion structural. -/
def stripTagsGo : Nat → List Char → List Char
  | 0, l => l
  | _, [] => []
  | fuel + 1, c :: t =>
    if c = '<' then
      match dropTag t with
      | some rest => stripTagsGo fuel rest
      | Option.none => c :: stripTagsGo fuel t
    else c :: stripTagsGo fuel t

/-- `re.sub` with a whitespace-run pattern and a single-space
replacement: collapse each maximal whitespace run to one space
(`prevWs` tracks whether the previous character was part of a run). -/
def collapseWsGo (prevWs : Bool) : List Char → List Char
  | [] => []
  | c :: t =>
    if c.isWhitespace then
      (if prevWs then [] else [' ']) ++ collapseWsGo true t
    else c :: collapseWsGo false t

/-- Python `s.replace(pat, rep)` for a non-empty pattern, scanning left
to right over non-overlapping occurrences; fuel as above. -/
def replaceSubGo (pat rep : List Char) : Nat → List Char → List Char
  | 0, l => l
  | _, [] => []
  | fuel + 1, c :: t =>
    if pat.isPrefixOf (c :: t) then
      rep ++ replaceSubGo pat rep fuel ((c :: t).drop pat.length)
    else c :: replaceSubGo pat rep fuel t

def pyReplace (s pat rep : String) : String :=
  ⟨replaceSubGo pat.data rep.data s.data.length s.data⟩

/-- `_clean_html(text)` on a string: tag removal, whitespace collapse,
entity decoding, final strip. -/
def clean_html_str (s : String) : String :=
  let t1 : String := ⟨stripTagsGo s.data.length s.data⟩
  let t2 : String := ⟨collapseWsGo false t1.data⟩
  let t3 := pyReplace t2 "&nbsp;" " "
  let t4 := pyReplace t3 "&amp;" "&"
  let t5 := pyReplace t4 "&lt;" "<"
  let t6 := pyReplace t5 "&gt;" ">"
  let t7 := pyReplace t6 "&quot;" "\""
  pyStrip t7

/-- `_clean_html` on a dynamic value: `if not text: return ""` fires
for any falsy argument before the regexes run; a truthy non-string
raises inside `re.sub`. -/
def clean_html_v (v : PyV) : Except String String :=
  if ¬ v.truthy then .ok ""
  else
    match v with
    | PyV.vstr s => .ok (clean_html_str s)
    | _ => .error "TypeError: expected string or bytes-like object"

/-- One raw feedparser entry; `Option.none` marks a missing attribute.
`published_parsed` holds `Option.none` when the attribute is missing or
falsy, `some Option.none` when it is truthy but `datetime(*...[:6])`
raises into the inner handler, and `some (some s)` with the
`strftime`-formatted string on success. -/
structure RawRSSEntry where
  title : Option PyV
  summary : Option PyV
  description : Option PyV
  published_parsed : Option (Option String)
  published : Option PyV
  link : Option PyV
  deriving DecidableEq, Repr

/-- The article dict built by `_process_rss_entry`. -/
structure RSSArticleData where
  title : String
  description : String
  url : PyV
  source : String
  source_category : String
  published_at : PyV
  relevance_score : Int
  is_headline : Bool
  content_preview : String
  keyword : String
  deriving DecidableEq, Repr

/-- The `published_at` value of `_process_rss_entry`: the formatted
parsed date when available, otherwise `getattr(entry, "published", "")`
(both in the inner `except` and in the `else` branch). -/
def rssPublishedAt (e : RawRSSEntry) : PyV :=
  match e.published_parsed with
  | some (some s) => PyV.vstr s
  | some Option.none => e.published.getD (PyV.vstr "")
  | Option.none => e.published.getD (PyV.vstr "")

/-- `_is_recent_article(published_at)`: falsy dates count as recent; a
string is parsed through the ordered format attempts on its first 19
characters (`rssParse`, in days), an unparsable string counts as
recent; a non-string value reaches `pub_date >= cutoff_date` with
`pub_date` unbound, and the resulting `NameError` lands in the bare
`except`, which also returns `True`. -/
def is_recent_article (rssParse : String → Option Int) (now : Int)
    (published_at : PyV) : Bool :=
  if ¬ published_at.truthy then true
  else
    match published_at with
    | PyV.vstr s =>
      match rssParse (pyTake s 19) with
      | some d => decide (now - 7 ≤ d)
      | Option.none => true
    | _ => true

/-- The `high_value_terms` list of the RSS `_calculate_relevance_score`. -/
def rss_high_value_terms : List String :=
  ["openai", "chatgpt", "gpt-4", "deepmind", "anthropic", "claude",
   "google ai", "microsoft ai", "nvidia", "tesla", "figure ai",
   "boston dynamics", "sanctuary ai", "humanoid robot"]

/-- The `medium_value_terms` list of the RSS `_calculate_relevance_score`. -/
def rss_medium_value_terms : List String :=
  ["artificial intelligence", "machine learning", "deep learning",
   "neural network", "robotics", "automation", "computer vision"]

/-- The RSS `_calculate_relevance_score(title, description)`, in tenths
(2.0 per high-value term, 1.0 per medium-value term, 1.0 title bonus,
capped at 5.0 = 50). -/
def rss_calculate_relevance_score (title description : String) : Int :=
  let title_lower := pyLower title
  let desc_lower := pyLower description
  let full_text := title_lower ++ " " ++ desc_lower
  let score :=
    (rss_high_value_terms.countP (fun t => pyIn t full_text) : Int) * 20 +
    (rss_medium_value_terms.countP (fun t => pyIn t full_text) : Int) * 10 +
    (if (rss_high_value_terms ++ rss_medium_value_terms).any
        (fun t => pyIn t title_lower) then (10 : Int) else 0)
  min score 50

/-- The `headline_indicators` list of the RSS `_is_ai_robotics_headline`
(distinct from the news-monitor list). -/
def rss_headline_indicators : List String :=
  ["announces", "launches", "releases", "unveils", "introduces",
   "breakthrough", "new model", "partnership", "acquisition",
   "funding", "milestone", "first time", "revolutionary",
   "open source", "research", "study finds"]

/-- The RSS `_is_ai_robotics_headline(title, description)`. -/
def rss_is_ai_robotics_headline (title description : String) : Bool :=
  let full_text := pyLower title ++ " " ++ pyLower description
  rss_headline_indicators.any (fun t => pyIn t full_text)

/-- The ordered `keyword_map` of `_extract_main_keyword`. -/
def keyword_map : List (String × String) :=
  [("openai", "OpenAI"), ("chatgpt", "ChatGPT"), ("deepmind", "DeepMind"),
   ("anthropic", "Anthropic"), ("claude", "Claude"), ("gemini", "Gemini"),
   ("tesla", "Tesla"), ("nvidia", "NVIDIA"), ("microsoft", "Microsoft"),
   ("google", "Google"), ("boston dynamics", "Boston Dynamics"),
   ("figure ai", "Figure AI"), ("sanctuary ai", "Sanctuary AI"),
   ("humanoid", "Humanoid Robotics"), ("robotics", "Robotics"),
   ("machine learning", "Machine Learning"), ("artificial intelligence", "AI")]

/-- `_extract_main_keyword(title, description)`: the first map entry
found in the lowercased concatenation, defaulting to `"AI"`. -/
def extract_main_keyword (title description : String) : String :=
  let full_text := pyLower (title ++ " " ++ description)
  match keyword_map.find? (fun p => pyIn p.1 full_text) with
  | some p => p.2
  | Option.none => "AI"

/-- The body of `_process_rss_entry` inside its `try`: strip the title
(`getattr(entry, "title", "").strip()`), clean and strip the summary-or-
description, drop (`None`) on an empty or short title, and drop stale
entries (`if not self._is_recent_article(...)`, written here with the
branches swapped); the pure intermediate bindings are inlined into the
final dict. -/
def processRSSBody (rssParse : String → Option Int) (now : Int)
    (feedName feedCategory : String) (e : RawRSSEntry) :
    Except String (Option RSSArticleData) :=
  match (e.title.getD (PyV.vstr "")).strip with
  | .error err => .error err
  | .ok title =>
    match clean_html_v (pyOr (e.summary.getD (PyV.vstr ""))
        (e.description.getD (PyV.vstr ""))) with
    | .error err => .error err
    | .ok cleaned =>
      let description := pyStrip cleaned
      if title = "" ∨ pyLen title < 10 then .ok Option.none
      else
        if is_recent_article rssParse now (rssPublishedAt e) then
          .ok (some
            { title := title,
              description := truncate_text description 400,
              url := e.link.getD (PyV.vstr ""),
              source := feedName,
              source_category := feedCategory,
              published_at := rssPublishedAt e,
              relevance_score := rss_calculate_relevance_score title description,
              is_headline := rss_is_ai_robotics_headline title description,
              content_preview := truncate_text description 200,
              keyword := extract_main_keyword title description })
        else .ok Option.none

/-- `_process_rss_entry(entry, feed_config)`: the body runs inside
`try ... except`, a per-record handler that turns any exception into
`None`. -/
def process_rss_entry (rssParse : String → Option Int) (now : Int)
    (feedName feedCategory : String) (e : RawRSSEntry) : Option RSSArticleData :=
  match processRSSBody rssParse now feedName feedCategory e with
  | .ok o => o
  | .error _ => Option.none

/-- A parsed paper coming out of `parsePaperBody` passed the title
check. -/
theorem parsePaperBody_some_title (pwcIso : String → Option String) (r : RawPaper)
    (query : String) (p : PaperInfo)
    (h : parsePaperBody pwcIso r query = .ok (some p)) :
    p.title ≠ "" ∧ 10 ≤ pyLen p.title := by
  unfold parsePaperBody at h
  cases ht : (r.title.getD (PyV.vstr "")).strip with
  | error e => rw [ht] at h; exact absurd h (by simp)
  | ok title =>
    rw [ht] at h
    cases ha : (r.abstract.getD (PyV.vstr "")).strip with
    | error e => rw [ha] at h; exact absurd h (by simp)
    | ok abstract =>
      rw [ha] at h
      dsimp only at h
      by_cases hcond : title = "" ∨ pyLen title < 10
      · rw [if_pos hcond] at h
        exact absurd h (by simp)
      · rw [if_neg hcond] at h
        push_neg at hcond
        cases hu : paperUrlOf r.url_abs with
        | error e => rw [hu] at h; exact absurd h (by simp)
        | ok paper_url =>
          rw [hu] at h
          cases hpub : pwcPublishedOf pwcIso r.published with
          | error e => rw [hpub] at h; exact absurd h (by simp)
          | ok published =>
            rw [hpub] at h
            cases hrel : pwc_calculate_relevance title abstract (extractTags r.tasks)
                (extractTags r.methods) query with
            | error e => rw [hrel] at h; exact absurd h (by simp)
            | ok relevance =>
              rw [hrel] at h
              have hrec := Option.some.inj (Except.ok.inj h)
              rw [← hrec]
              dsimp only
              exact ⟨hcond.1, by omega⟩

/-- Given that the two strips succeed, `_parse_paper_data` drops a
paper (without raising) exactly when the stripped title fails the
length check. -/
theorem parsePaperBody_none_iff (pwcIso : String → Option String) (r : RawPaper)
    (query : String) (t ab : String)
    (ht : (r.title.getD (PyV.vstr "")).strip = .ok t)
    (ha : (r.abstract.getD (PyV.vstr "")).strip = .ok ab) :
    parsePaperBody pwcIso r query = .ok Option.none ↔ (t = "" ∨ pyLen t < 10) := by
  unfold parsePaperBody
  rw [ht, ha]
  dsimp only
  by_cases hcond : t = "" ∨ pyLen t < 10
  · rw [if_pos hcond]
    simp [hcond]
  · rw [if_neg hcond]
    constructor
    · intro hnone
      exfalso
      cases hu : paperUrlOf r.url_abs with
      | error e => rw [hu] at hnone; exact absurd hnone (by simp)
      | ok paper_url =>
        rw [hu] at hnone
        cases hpub : pwcPublishedOf pwcIso r.published with
        | error e => rw [hpub] at hnone; exact absurd hnone (by simp)
        | ok published =>
          rw [hpub] at hnone
          cases hrel : pwc_calculate_relevance t ab (extractTags r.tasks)
              (extractTags r.methods) query with
          | error e => rw [hrel] at hnone; exact absurd hnone (by simp)
          | ok relevance =>
            rw [hrel] at hnone
            exact absurd hnone (by simp)
    · intro hfalse
      exact absurd hfalse hcond

/-- A parsed RSS article coming out of `processRSSBody` passed the
title check. -/
theorem processRSSBody_some_title (rssParse : String → Option Int) (now : Int)
    (feedName feedCategory : String) (e : RawRSSEntry) (ad : RSSArticleData)
    (h : processRSSBody rssParse now feedName feedCategory e = .ok (some ad)) :
    ad.title ≠ "" ∧ 10 ≤ pyLen ad.title := by
  unfold processRSSBody at h
  cases ht : (e.title.getD (PyV.vstr "")).strip with
  | error err => rw [ht] at h; exact absurd h (by simp)
  | ok title =>
    rw [ht] at h
    cases hc : clean_html_v (pyOr (e.summary.getD (PyV.vstr ""))
        (e.description.getD (PyV.vstr ""))) with
    | error err => rw [hc] at h; exact absurd h (by simp)
    | ok cleaned =>
      rw [hc] at h
      dsimp only at h
      by_cases hcond : title = "" ∨ pyLen title < 10
      · rw [if_pos hcond] at h
        exact absurd h (by simp)
      · rw [if_neg hcond] at h
        push_neg at hcond
        by_cases hrec : is_recent_article rssParse now (rssPublishedAt e) = true
        · rw [if_pos hrec] at h
          have hrecd := Option.some.inj (Except.ok.inj h)
          rw [← hrecd]
          refine ⟨hcond.1, ?_⟩
          show 10 ≤ pyLen title
          omega
        · rw [if_neg hrec] at h
          exact absurd h (by simp)

/-- Given that the title strip and the HTML cleanup succeed,
`_process_rss_entry` drops an entry (without raising) exactly when the
stripped title fails the length check or the entry is stale. -/
theorem processRSSBody_none_iff (rssParse : String → Option Int) (now : Int)
    (feedName feedCategory : String) (e : RawRSSEntry) (t c : String)
    (ht : (e.title.getD (PyV.vstr "")).strip = .ok t)
    (hc : clean_html_v (pyOr (e.summary.getD (PyV.vstr ""))
      (e.description.getD (PyV.vstr ""))) = .ok c) :
    processRSSBody rssParse now feedName feedCategory e = .ok Option.none ↔
      ((t = "" ∨ pyLen t < 10) ∨
        is_recent_article rssParse now (rssPublishedAt e) = false) := by
  unfold processRSSBody
  rw [ht, hc]
  dsimp only
  by_cases hcond : t = "" ∨ pyLen t < 10
  · rw [if_pos hcond]
    simp [hcond]
  · rw [if_neg hcond]
    by_cases hrec : is_recent_article rssParse now (rssPublishedAt e) = true
    · rw [if_pos hrec]
      simp [hcond, hrec]
    · rw [if_neg hrec]
      simp only [Bool.not_eq_true] at hrec
      simp [hcond, hrec]

/-- Claim C10 (amended): in the news, RSS and papers adapters a record
is dropped before scoring exactly when its stripped title is empty or
shorter than 10 characters (malformed records raising aside) — except
that the RSS adapter additionally drops entries whose parsed
publication date is more than 7 days old; the body
(description/abstract) is never checked, so records carrying an empty
body reach scoring whenever the title (and, for RSS, recency) test
passes. -/
theorem claim_c10_field_validation (isoParse : String → Option String) (keyword : String)
    (a : RawArticle) (pwcIso : String → Option String) (query : String) (r : RawPaper)
    (rssParse : String → Option Int) (now : Int) (feedName feedCategory : String)
    (e : RawRSSEntry) :
    (∀ ad, process_article isoParse a keyword = .ok (some ad) →
      ad.title ≠ "" ∧ 10 ≤ pyLen ad.title) ∧
    (∀ t d c, getOrEmptyStrip a.title = .ok t → getOrEmptyStrip a.description = .ok d →
      getOrEmptyStrip a.content = .ok c → (t = "" ∨ pyLen t < 10) →
      process_article isoParse a keyword = .ok Option.none) ∧
    (process_article isoParse a keyword = .ok Option.none →
      ∃ t, getOrEmptyStrip a.title = .ok t ∧ (t = "" ∨ pyLen t < 10)) ∧
    (∀ p, parse_paper_data pwcIso r query = some p →
      p.title ≠ "" ∧ 10 ≤ pyLen p.title) ∧
    (∀ t ab, (r.title.getD (PyV.vstr "")).strip = .ok t →
      (r.abstract.getD (PyV.vstr "")).strip = .ok ab →
      (parsePaperBody pwcIso r query = .ok Option.none ↔ (t = "" ∨ pyLen t < 10))) ∧
    (∀ ad, process_rss_entry rssParse now feedName feedCategory e = some ad →
      ad.title ≠ "" ∧ 10 ≤ pyLen ad.title) ∧
    (∀ t c, (e.title.getD (PyV.vstr "")).strip = .ok t →
      clean_html_v (pyOr (e.summary.getD (PyV.vstr ""))
        (e.description.getD (PyV.vstr ""))) = .ok c →
      (processRSSBody rssParse now feedName feedCategory e = .ok Option.none ↔
        ((t = "" ∨ pyLen t < 10) ∨
          is_recent_article rssParse now (rssPublishedAt e) = false))) := by
  refine ⟨?_, ?_, ?_, ?_, ?_, ?_, ?_⟩
  · intro ad h
    unfold process_article at h
    cases ht : getOrEmptyStrip a.title with
    | error e => rw [ht] at h; exact absurd h (by simp)
    | ok title =>
      rw [ht] at h
      cases hd : getOrEmptyStrip a.description with
      | error e => rw [hd] at h; exact absurd h (by simp)
      | ok description =>
        rw [hd] at h
        cases hc : getOrEmptyStrip a.content with
        | error e => rw [hc] at h; exact absurd h (by simp)
        | ok content =>
          rw [hc] at h
          dsimp only at h
          by_cases hcond : title = "" ∨ pyLen title < 10
          · rw [if_pos hcond] at h
            exact absurd h (by simp)
          · rw [if_neg hcond] at h
            push_neg at hcond
            cases hs : sourceNameOf a.source with
            | error e => rw [hs] at h; exact absurd h (by simp)
            | ok s0 =>
              rw [hs] at h
              cases hpub : publishedOf isoParse a.publishedAt with
              | error e => rw [hpub] at h; exact absurd h (by simp)
              | ok published =>
                rw [hpub] at h
                have hrec := Option.some.inj (Except.ok.inj h)
                rw [← hrec]
                refine ⟨hcond.1, ?_⟩
                show 10 ≤ pyLen title
                omega
  · intro t d c ht hd hc hcond
    unfold process_article
    rw [ht, hd, hc]
    dsimp only
    rw [if_pos hcond]
  · intro h
    unfold process_article at h
    cases ht : getOrEmptyStrip a.title with
    | error e => rw [ht] at h; exact absurd h (by simp)
    | ok title =>
      rw [ht] at h
      cases hd : getOrEmptyStrip a.description with
      | error e => rw [hd] at h; exact absurd h (by simp)
      | ok description =>
        rw [hd] at h
        cases hc : getOrEmptyStrip a.content with
        | error e => rw [hc] at h; exact absurd h (by simp)
        | ok content =>
          rw [hc] at h
          dsimp only at h
          by_cases hcond : title = "" ∨ pyLen title < 10
          · exact ⟨title, rfl, hcond⟩
          · rw [if_neg hcond] at h
            cases hs : sourceNameOf a.source with
            | error e => rw [hs] at h; exact absurd h (by simp)
            | ok s0 =>
              rw [hs] at h
              cases hpub : publishedOf isoParse a.publishedAt with
              | error e => rw [hpub] at h; exact absurd h (by simp)
              | ok published =>
                rw [hpub] at h
                exact absurd h (by simp)
  · intro p h
    unfold parse_paper_data at h
    cases hb : parsePaperBody pwcIso r query with
    | error err =>
      rw [hb] at h
      exact absurd h (by simp)
    | ok o =>
      rw [hb] at h
      dsimp only at h
      rw [h] at hb
      exact parsePaperBody_some_title pwcIso r query p hb
  · intro t ab ht ha
    exact parsePaperBody_none_iff pwcIso r query t ab ht ha
  · intro ad h
    unfold process_rss_entry at h
    cases hb : processRSSBody rssParse now feedName feedCategory e with
    | error err =>
      rw [hb] at h
      exact absurd h (by simp)
    | ok o =>
      rw [hb] at h
      dsimp only at h
      rw [h] at hb
      exact processRSSBody_some_title rssParse now feedName feedCategory e ad hb
  · intro t c ht hc
    exact processRSSBody_none_iff rssParse now feedName feedCategory e t c ht hc

def cxArticle : RawArticle :=
  { title := some (PyV.vstr "Valid Long Title Here"),
    description := some (PyV.vstr ""), content := some (PyV.vstr ""),
    source := some (SourceV.splain (PyV.vstr "Src")),
    publishedAt := some (PyV.vstr ""), url := some (PyV.vstr "http://a") }

/-- Counterexample to C10 as stated: an article with a valid long title
but an empty description/body is not dropped — it is processed, scored
(relevance 0 here) and returned, with its empty body intact. -/
theorem claim_c10_counterexample :
    process_article (fun _ => Option.none) cxArticle "ai" =
      .ok (some
        { title := "Valid Long Title Here", description := "",
          url := PyV.vstr "http://a", source := "Src", published_at := PyV.vstr "",
          keyword := "ai", relevance_score := 0, is_headline := false,
          content_preview := "" }) := rfl

def wC10Article : RawArticle :=
  { title := some (PyV.vstr "Hi"), description := some (PyV.vstr "body text"),
    content := some (PyV.vstr ""), source := Option.none,
    publishedAt := Option.none, url := Option.none }

def wShortPaper : RawPaper :=
  { title := some (PyV.vstr "Tiny"), abstract := some (PyV.vstr "abs"),
    url_abs := Option.none, published := Option.none, tasks := Option.none,
    methods := Option.none, proceeding := Option.none, url_pdf := Option.none }

def wRSSEntry : RawRSSEntry :=
  { title := some (PyV.vstr "Hi"), summary := some (PyV.vstr "some feed body"),
    description := Option.none, published_parsed := Option.none,
    published := Option.none, link := Option.none }

/-- Witness for C10: a stripped 2-character title makes
`_process_article` drop the record, a 4-character title makes
`_parse_paper_data` drop the paper, and a 2-character title makes
`_process_rss_entry` drop the entry. -/
theorem claim_c10_witness :
    process_article (fun _ => Option.none) wC10Article "ai" = .ok Option.none ∧
    parsePaperBody (fun _ => Option.none) wShortPaper "q" = .ok Option.none ∧
    processRSSBody (fun _ => Option.none) 0 "Feed" "news" wRSSEntry =
      .ok Option.none :=
  ⟨(claim_c10_field_validation (fun _ => Option.none) "ai" wC10Article
      (fun _ => Option.none) "q" wShortPaper (fun _ => Option.none) 0 "Feed" "news"
      wRSSEntry).2.1 "Hi" "body text" "" rfl rfl rfl (Or.inr (by decide)),
   ((claim_c10_field_validation (fun _ => Option.none) "ai" wC10Article
      (fun _ => Option.none) "q" wShortPaper (fun _ => Option.none) 0 "Feed" "news"
      wRSSEntry).2.2.2.2.1 "Tiny" "abs" rfl rfl).mpr (Or.inr (by decide)),
   ((claim_c10_field_validation (fun _ => Option.none) "ai" wC10Article
      (fun _ => Option.none) "q" wShortPaper (fun _ => Option.none) 0 "Feed" "news"
      wRSSEntry).2.2.2.2.2.2 "Hi" "some feed body" rfl rfl).mpr
     (Or.inl (Or.inr (by decide)))⟩

/-! ## Aggregation: enhanced_email_agent.py

`_collect_and_enrich_clusters` merges the per-source analysis cluster
maps, then enriches each record with activity level, trend, and urgency;
`create_enhanced_email_content` wraps the whole build in a
`try ... except` whose handler returns the `_create_fallback_content()`
notice page, so no exception (in particular the deliberate
`ValueError` raised when every source contributed zero items) ever
propagates to the caller.  The HTML assembly itself is abstracted into
the `digest` constructor, which keeps the collected clusters. -/

/-- One per-source cluster analysis dict; the count field stands for
whichever of `commit_count`/`paper_count`/`article_count` the source
kind uses, read with a default of 0. -/
structure SrcCluster where
  cluster_info : String
  analysis : String
  commit_count : Nat
  paper_count : Nat
  article_count : Nat
  deriving DecidableEq, Repr

/-- One per-source analysis result: its `status` string and its cluster
map in insertion order. -/
structure Analysis where
  status : String
  clusters : List (String × SrcCluster)
  deriving DecidableEq, Repr

/-- One merged cluster record as built by `_collect_and_enrich_clusters`. -/
structure EnrichedCluster where
  info : String
  github : Option SrcCluster
  papers : Option SrcCluster
  news : Option SrcCluster
  activity_level : String
  trend : String
  urgency : String
  deriving DecidableEq, Repr

/-- The fresh record created when a cluster id is first seen. -/
def emptyEnriched (info : String) : EnrichedCluster :=
  { info := info, github := Option.none, papers := Option.none, news := Option.none,
    activity_level := "low", trend := "stable", urgency := "low" }

/-- `all_clusters[cluster_id][analysis_type] = cluster_data`. -/
def setSource (ty : String) (cd : SrcCluster) (ec : EnrichedCluster) : EnrichedCluster :=
  if ty = "github" then { ec with github := some cd }
  else if ty = "papers" then { ec with papers := some cd }
  else if ty = "news" then { ec with news := some cd }
  else ec

/-- The inner collection loop over one source analysis. -/
def collectFrom (ty : String) : List (String × EnrichedCluster) →
    List (String × SrcCluster) → List (String × EnrichedCluster)
  | acc, [] => acc
  | acc, (cid, cd) :: rest =>
    let acc2 := if acc.any (fun p => p.1 == cid) then acc
                else acc ++ [(cid, emptyEnriched cd.cluster_info)]
    collectFrom ty (acc2.map (fun p => if p.1 == cid then (p.1, setSource ty cd p.2) else p))
      rest

/-- One source contributes its clusters only when its analysis status is
`"success"`. -/
def collectSide (ty : String) (ana : Analysis) (acc : List (String × EnrichedCluster)) :
    List (String × EnrichedCluster) :=
  if ana.status = "success" then collectFrom ty acc ana.clusters else acc

/-- The concatenated `analysis` texts of the present sources, in the
github/papers/news order of the source loop. -/
def srcAnalysisText (ec : EnrichedCluster) : String :=
  (match ec.github with | some c => c.analysis ++ " " | Option.none => "") ++
  (match ec.papers with | some c => c.analysis ++ " " | Option.none => "") ++
  (match ec.news with | some c => c.analysis ++ " " | Option.none => "")

/-- `_calculate_activity_level`, with the `activity_thresholds` table of
`__init__` inlined (high: github 8 / papers 4 / news 6; medium:
4 / 2 / 3). -/
def calculate_activity_level (ec : EnrichedCluster) : String :=
  let g := match ec.github with | some c => c.commit_count | Option.none => 0
  let p := match ec.papers with | some c => c.paper_count | Option.none => 0
  let n := match ec.news with | some c => c.article_count | Option.none => 0
  if 8 ≤ g ∨ 4 ≤ p ∨ 6 ≤ n then "high"
  else if 4 ≤ g ∨ 2 ≤ p ∨ 3 ≤ n then "medium"
  else "low"

def increasing_keywords : List String :=
  ["growing", "increasing", "expanding", "rising", "surge", "boom", "accelerating"]

def decreasing_keywords : List String :=
  ["declining", "decreasing", "falling", "dropping", "slowing", "reducing"]

/-- `_determine_trend`. -/
def determine_trend (ec : EnrichedCluster) : String :=
  let all_text := pyLower (srcAnalysisText ec)
  let incCount := increasing_keywords.countP (fun k => pyIn k all_text)
  let decCount := decreasing_keywords.countP (fun k => pyIn k all_text)
  if decCount < incCount then "increasing"
  else if incCount < decCount then "decreasing"
  else "stable"

/-- The ordered `urgency_keywords` table of `__init__`. -/
def urgency_keywords : List (String × List String) :=
  [("breaking", ["breaking", "urgent", "critical", "emergency", "immediate"]),
   ("high", ["major", "significant", "important", "breakthrough", "milestone"]),
   ("medium", ["notable", "interesting", "development", "update", "progress"]),
   ("low", ["minor", "small", "routine", "maintenance", "patch"])]

/-- `_assess_urgency`: the first urgency level whose keyword list hits
the concatenated analysis text, defaulting to `"low"`. -/
def assess_urgency (ec : EnrichedCluster) : String :=
  let all_text := pyLower (srcAnalysisText ec)
  match urgency_keywords.find? (fun p => p.2.any (fun k => pyIn k all_text)) with
  | some p => p.1
  | Option.none => "low"

/-- The enrichment pass over one collected record. -/
def enrichCluster (ec : EnrichedCluster) : EnrichedCluster :=
  { ec with activity_level := calculate_activity_level ec,
            trend := determine_trend ec, urgency := assess_urgency ec }

/-- `_collect_and_enrich_clusters(github_analysis, papers_analysis,
news_analysis)`. -/
def collect_and_enrich_clusters (gh pa ne : Analysis) :
    List (String × EnrichedCluster) :=
  let all0 := collectSide "github" gh []
  let all1 := collectSide "papers" pa all0
  let all2 := collectSide "news" ne all1
  all2.map (fun p => (p.1, enrichCluster p.2))

/-- The two outcomes `create_enhanced_email_content` can hand back: the
assembled digest page (abstracted to the clusters it renders) or the
`_create_fallback_content()` notice page. -/
inductive EmailResult where
  | digest (clusters : List (String × EnrichedCluster))
  | fallback
  deriving DecidableEq, Repr

/-- `create_enhanced_email_content`: the body counts
`len(github_data.get("commits", [])) + len(papers_data) + len(news_data)`
and raises `ValueError` when the total is zero — but the raise happens
inside the function's own `try`, whose `except Exception` handler
returns the fallback notice page as an ordinary value; an uncaught
exception (`Except.error`) is never produced. -/
def create_enhanced_email_content {α β γ : Type} (gh pa ne : Analysis)
    (commits : List α) (papers : List β) (news : List γ) :
    Except String EmailResult :=
  let total := commits.length + papers.length + news.length
  if total = 0 then Except.ok EmailResult.fallback
  else Except.ok (EmailResult.digest (collect_and_enrich_clusters gh pa ne))

def emptyAnalysis : Analysis := { status := "no_data", clusters := [] }

/-- Counterexample to C9 as stated: with every source contributing zero
items the caller does not receive a distinct error or empty signal —
the internal `ValueError` is swallowed by the function's own handler and
an ordinary successful return carries the fallback placeholder page. -/
theorem claim_c9_counterexample :
    create_enhanced_email_content emptyAnalysis emptyAnalysis emptyAnalysis
      ([] : List Unit) ([] : List Unit) ([] : List Unit) =
      Except.ok EmailResult.fallback := rfl

/-- Claim C9 (amended): aggregating analyses that contributed no
clusters yields an empty cluster map — no record is fabricated — and on
all-empty input data the function returns (does not raise) the fallback
notice page: the internal `ValueError` never reaches the caller. -/
theorem claim_c9_empty_aggregation {α β γ : Type} (gh pa ne : Analysis)
    (hg : gh.status ≠ "success" ∨ gh.clusters = [])
    (hp : pa.status ≠ "success" ∨ pa.clusters = [])
    (hn : ne.status ≠ "success" ∨ ne.clusters = []) :
    collect_and_enrich_clusters gh pa ne = [] ∧
    create_enhanced_email_content gh pa ne ([] : List α) ([] : List β) ([] : List γ) =
      Except.ok EmailResult.fallback := by
  have hside : ∀ (ty : String) (ana : Analysis),
      ana.status ≠ "success" ∨ ana.clusters = [] → collectSide ty ana [] = [] := by
    intro ty ana hana
    unfold collectSide
    rcases hana with hst | hcl
    · rw [if_neg hst]
    · split_ifs with hst
      · rw [hcl]
        rfl
      · rfl
  constructor
  · show List.map (fun p => (p.1, enrichCluster p.2))
      (collectSide "news" ne (collectSide "papers" pa (collectSide "github" gh []))) = []
    rw [hside "github" gh hg, hside "papers" pa hp, hside "news" ne hn]
    rfl
  · rfl

/-- Witness for C9 with concrete empty analyses and item lists. -/
theorem claim_c9_witness :
    collect_and_enrich_clusters emptyAnalysis emptyAnalysis emptyAnalysis = [] ∧
    create_enhanced_email_content emptyAnalysis emptyAnalysis emptyAnalysis
      ([] : List Unit) ([] : List Unit) ([] : List Unit) =
      Except.ok EmailResult.fallback :=
  claim_c9_empty_aggregation emptyAnalysis emptyAnalysis emptyAnalysis
    (Or.inr rfl) (Or.inr rfl) (Or.inr rfl)
